import Mathlib

/-!
Pong-Evolved: a shallow embedding of the simulation core and its wire protocol

The C++ sources embedded here are `Ball.cpp`, `Paddle.cpp`, `PowerUp.cpp`,
`PowerUpManager.cpp` and `Game.cpp` (`update`, `reset`, `setBotAction`,
`getStateJson`, `handleClient`).

Conventions of the embedding.

* `float` values are rationals (`ℚ`): arithmetic is exact, there is no rounding,
  no infinity and no NaN.
* `int` scores and actions are `Int`; `size_t` values are `Nat` taken modulo `2 ^ 64`
  wherever the source subtracts or adds them.
* `std::string` is `List Char` in the parser and `String` in the encoder.
* Mutable objects become values; a member function returns the updated object.
* Functions of the C/C++ runtime and of the graphics library that the sources call
  but that are not part of the repository (`srand`, `rand`, `cos`, `sin`,
  `std::to_string(float)`, the bounding box of a circle shape) are collected in
  the record `Sys`, over which the definitions are parametrised.
-/

namespace Pong

/-! ## Geometry -/

/-- Two-component float vector (`sf::Vector2f`). -/
structure Vector2f where
  x : ℚ
  y : ℚ
deriving DecidableEq, Repr

/-- Component-wise sum (`operator+`). -/
def Vector2f.add (a b : Vector2f) : Vector2f := ⟨a.x + b.x, a.y + b.y⟩

/-- Component-wise difference (`operator-`). -/
def Vector2f.sub (a b : Vector2f) : Vector2f := ⟨a.x - b.x, a.y - b.y⟩

/-- Scaling by a float (`operator*`). -/
def Vector2f.scale (a : Vector2f) (k : ℚ) : Vector2f := ⟨a.x * k, a.y * k⟩

/-- Axis-aligned rectangle (`sf::FloatRect`): top-left corner and size. -/
structure FloatRect where
  position : Vector2f
  size : Vector2f
deriving DecidableEq, Repr

/-- Intersection test of two rectangles (`sf::Rect::findIntersection`): the overlap
when it has positive area, nothing otherwise. Negative sizes are normalised first. -/
def FloatRect.findIntersection (r1 r2 : FloatRect) : Option FloatRect :=
  let r1MinX := min r1.position.x (r1.position.x + r1.size.x)
  let r1MaxX := max r1.position.x (r1.position.x + r1.size.x)
  let r1MinY := min r1.position.y (r1.position.y + r1.size.y)
  let r1MaxY := max r1.position.y (r1.position.y + r1.size.y)
  let r2MinX := min r2.position.x (r2.position.x + r2.size.x)
  let r2MaxX := max r2.position.x (r2.position.x + r2.size.x)
  let r2MinY := min r2.position.y (r2.position.y + r2.size.y)
  let r2MaxY := max r2.position.y (r2.position.y + r2.size.y)
  let interLeft := max r1MinX r2MinX
  let interTop := max r1MinY r2MinY
  let interRight := min r1MaxX r2MaxX
  let interBottom := min r1MaxY r2MaxY
  if interLeft < interRight ∧ interTop < interBottom then
    some ⟨⟨interLeft, interTop⟩, ⟨interRight - interLeft, interBottom - interTop⟩⟩
  else none

/-- Rectangle moved by an offset: the global bounds of an untransformed shape placed
at `p` are its local bounds moved by `p`. -/
def FloatRect.translate (r : FloatRect) (p : Vector2f) : FloatRect :=
  ⟨r.position.add p, r.size⟩

/-! ## Runtime functions outside the repository -/

/-- Library functions called by the sources. `srand seed` is the generator state
after seeding, `rand st` the drawn value and the next state, `cos`/`sin` the float
trigonometric functions, `to_string` is `std::to_string(float)`, and `circleBounds r`
the local bounding box of a circle shape of radius `r`. -/
structure Sys where
  srand : Nat → Nat
  rand : Nat → Nat × Nat
  cos : ℚ → ℚ
  sin : ℚ → ℚ
  to_string : ℚ → String
  circleBounds : ℚ → FloatRect

/-! ## Ball (`Ball.cpp`) -/

/-- Circle shape: radius and position of its top-left corner. -/
structure CircleShape where
  radius : ℚ
  position : Vector2f
deriving DecidableEq, Repr

/-- Ball record (`class Ball`). -/
structure Ball where
  velocity : Vector2f
  shape : CircleShape
  initialPosition : Vector2f
  speedMultiplier : ℚ
deriving DecidableEq, Repr

/-- Direction angle in radians computed from a draw:
`(rand() % 360) * 3.14159f / 180.0f`. -/
def Ball.angle (draw : Nat) : ℚ := ((draw % 360 : Nat) : ℚ) * (314159 / 100000) / 180

/-- Constructor `Ball::Ball()`: reseeds the process-wide generator with 42, draws
once, and returns the ball with the generator state left behind. The incoming
generator state is overwritten by the reseeding. -/
def Ball.new (S : Sys) (_rng : Nat) : Ball × Nat :=
  let initialPosition : Vector2f := ⟨400, 300⟩
  let rng1 := S.srand 42
  let d := S.rand rng1
  let angle := Ball.angle d.1
  let speed : ℚ := 300
  (⟨⟨S.cos angle * speed, S.sin angle * speed⟩,
    ⟨10, initialPosition.sub ⟨10, 10⟩⟩, initialPosition, 1⟩, d.2)

/-- Member `Ball::bounceX`. -/
def Ball.bounceX (b : Ball) : Ball := { b with velocity := ⟨-b.velocity.x, b.velocity.y⟩ }

/-- Member `Ball::bounceY`. -/
def Ball.bounceY (b : Ball) : Ball := { b with velocity := ⟨b.velocity.x, -b.velocity.y⟩ }

/-- Shape setter `shape.setPosition`. -/
def Ball.setShapePosition (b : Ball) (p : Vector2f) : Ball :=
  { b with shape := { b.shape with position := p } }

/-- Member `Ball::update`: move, then bounce off the top and bottom walls. -/
def Ball.update (b : Ball) (dt : ℚ) : Ball :=
  let b1 := b.setShapePosition (b.shape.position.add ((b.velocity.scale dt).scale b.speedMultiplier))
  if b1.shape.position.y ≤ 0 then
    (b1.bounceY).setShapePosition ⟨b1.shape.position.x, 0⟩
  else if b1.shape.position.y + 20 ≥ 600 then
    (b1.bounceY).setShapePosition ⟨b1.shape.position.x, 580⟩
  else b1

/-- Member `Ball::getBounds`: global bounds of the circle shape. -/
def Ball.getBounds (S : Sys) (b : Ball) : FloatRect :=
  (S.circleBounds b.shape.radius).translate b.shape.position

/-- Member `Ball::getPosition`: the centre. -/
def Ball.getPosition (b : Ball) : Vector2f := b.shape.position.add ⟨10, 10⟩

/-- Member `Ball::reset`. -/
def Ball.reset (S : Sys) (b : Ball) (_rng : Nat) : Ball × Nat :=
  let b1 := b.setShapePosition (b.initialPosition.sub ⟨10, 10⟩)
  let rng1 := S.srand 42
  let d := S.rand rng1
  let angle := Ball.angle d.1
  let speed : ℚ := 300
  ({ b1 with speedMultiplier := 1, velocity := ⟨S.cos angle * speed, S.sin angle * speed⟩ }, d.2)

/-- Member `Ball::setSpeedMultiplier`. -/
def Ball.setSpeedMultiplier (b : Ball) (mult : ℚ) : Ball := { b with speedMultiplier := mult }

/-! ## Paddle (`Paddle.cpp`) -/

/-- Rectangle shape: size and position of its top-left corner. -/
structure RectangleShape where
  size : Vector2f
  position : Vector2f
deriving DecidableEq, Repr

/-- Paddle record (`class Paddle`). -/
structure Paddle where
  shape : RectangleShape
  extended : Bool
  extendTimeLeft : ℚ
  originalSize : Vector2f
  speed : ℚ
  initialPosition : Vector2f
deriving DecidableEq, Repr

/-- Constructor `Paddle::Paddle(bool isPlayer)`. -/
def Paddle.new (isPlayer : Bool) : Paddle :=
  let initialPosition : Vector2f := if isPlayer then ⟨10, 250⟩ else ⟨770, 250⟩
  ⟨⟨⟨20, 100⟩, initialPosition⟩, false, 0, ⟨20, 100⟩, 600, initialPosition⟩

/-- Shape setter `shape.setPosition`. -/
def Paddle.setShapePosition (p : Paddle) (q : Vector2f) : Paddle :=
  { p with shape := { p.shape with position := q } }

/-- Shape setter `shape.setSize`. -/
def Paddle.setShapeSize (p : Paddle) (s : Vector2f) : Paddle :=
  { p with shape := { p.shape with size := s } }

/-- Member `Paddle::moveUp`. -/
def Paddle.moveUp (p : Paddle) (dt : ℚ) : Paddle :=
  let p1 := p.setShapePosition (p.shape.position.add ⟨0, -p.speed * dt⟩)
  if p1.shape.position.y < 0 then p1.setShapePosition ⟨p1.shape.position.x, 0⟩ else p1

/-- Member `Paddle::moveDown`. -/
def Paddle.moveDown (p : Paddle) (dt : ℚ) : Paddle :=
  let p1 := p.setShapePosition (p.shape.position.add ⟨0, p.speed * dt⟩)
  if p1.shape.position.y + p1.shape.size.y > 600 then
    p1.setShapePosition ⟨p1.shape.position.x, 600 - p1.shape.size.y⟩
  else p1

/-- Member `Paddle::getBounds`: global bounds of the rectangle shape. -/
def Paddle.getBounds (p : Paddle) : FloatRect := ⟨p.shape.position, p.shape.size⟩

/-- Member `Paddle::getPosition`: the centre of the rectangle. -/
def Paddle.getPosition (p : Paddle) : Vector2f :=
  p.shape.position.add ⟨p.shape.size.x / 2, p.shape.size.y / 2⟩

/-- Member `Paddle::reset`. -/
def Paddle.reset (p : Paddle) : Paddle := p.setShapePosition p.initialPosition

/-- Member `Paddle::extend`. -/
def Paddle.extend (p : Paddle) (duration : ℚ) : Paddle :=
  if !p.extended then
    ({ p with extended := true, extendTimeLeft := duration }).setShapeSize
      ⟨p.originalSize.x * 2, p.originalSize.y⟩
  else p

/-! ## Power-ups (`PowerUp.cpp`, `PowerUpManager.cpp`) -/

/-- Enumeration `PowerUpType`, in declaration order. -/
inductive PowerUpType where
  | ExtendPaddle
  | SplitBall
  | SlowMotion
deriving DecidableEq, Repr

/-- Falling power-up (`class PowerUp`). -/
structure PowerUp where
  type : PowerUpType
  shape : CircleShape
  velocity : Vector2f
deriving DecidableEq, Repr

/-- Constructor `PowerUp::PowerUp(type, position)`. -/
def PowerUp.new (type : PowerUpType) (position : Vector2f) : PowerUp :=
  ⟨type, ⟨15, position⟩, ⟨0, 100⟩⟩

/-- Member `PowerUp::update`. -/
def PowerUp.update (p : PowerUp) (dt : ℚ) : PowerUp :=
  { p with shape := { p.shape with position := p.shape.position.add (p.velocity.scale dt) } }

/-- Member `PowerUp::getBounds`. -/
def PowerUp.getBounds (S : Sys) (p : PowerUp) : FloatRect :=
  (S.circleBounds p.shape.radius).translate p.shape.position

/-- Member `PowerUp::getType`. -/
def PowerUp.getType (p : PowerUp) : PowerUpType := p.type

/-- Timed effect record (`struct ActiveEffect`). -/
structure ActiveEffect where
  type : PowerUpType
  timeLeft : ℚ
deriving DecidableEq, Repr

/-- A `std::map<PowerUpType, float>` holding all three keys, as the constructor of the
manager builds it; iteration visits the keys in enumeration order. -/
structure TypeMap where
  extendPaddle : ℚ
  splitBall : ℚ
  slowMotion : ℚ
deriving DecidableEq, Repr

/-- Lookup `m[k]`. -/
def TypeMap.get (m : TypeMap) : PowerUpType → ℚ
  | .ExtendPaddle => m.extendPaddle
  | .SplitBall => m.splitBall
  | .SlowMotion => m.slowMotion

/-- Assignment `m[k] = v`. -/
def TypeMap.set (m : TypeMap) (k : PowerUpType) (v : ℚ) : TypeMap :=
  match k with
  | .ExtendPaddle => { m with extendPaddle := v }
  | .SplitBall => { m with splitBall := v }
  | .SlowMotion => { m with slowMotion := v }

/-- Keys of a `TypeMap` in iteration order. -/
def TypeMap.keys : List PowerUpType := [.ExtendPaddle, .SplitBall, .SlowMotion]

/-- Manager record (`class PowerUpManager`). -/
structure PowerUpManager where
  powerUps : List PowerUp
  activeEffects : List ActiveEffect
  spawnTimers : TypeMap
  durations : TypeMap
  spawnIntervals : TypeMap
deriving DecidableEq, Repr

/-- Constructor `PowerUpManager::PowerUpManager()`. -/
def PowerUpManager.new : PowerUpManager :=
  let durations : TypeMap := ⟨10, 0, 8⟩
  let spawnIntervals : TypeMap := ⟨15, 20, 25⟩
  ⟨[], [], spawnIntervals, durations, spawnIntervals⟩

/-- The objects `PowerUpManager::update` receives by reference (the player paddle and
the ball vector, passed twice) together with the process-wide generator state. -/
structure Refs where
  playerPaddle : Paddle
  balls : List Ball
  rng : Nat
deriving DecidableEq, Repr

/-- Member `PowerUpManager::spawnPowerUp`. -/
def PowerUpManager.spawnPowerUp (S : Sys) (pm : PowerUpManager) (type : PowerUpType)
    (rng : Nat) : PowerUpManager × Nat :=
  let d := S.rand rng
  let x : ℚ := ((d.1 % 800 : Nat) : ℚ)
  let pos : Vector2f := ⟨x, 0⟩
  ({ pm with powerUps := pm.powerUps ++ [PowerUp.new type pos] }, d.2)

/-- Member `PowerUpManager::applyEffect`. -/
def PowerUpManager.applyEffect (S : Sys) (pm : PowerUpManager) (type : PowerUpType)
    (r : Refs) : PowerUpManager × Refs :=
  match type with
  | .ExtendPaddle =>
    ({ pm with activeEffects := pm.activeEffects ++ [⟨type, pm.durations.get type⟩] },
     { r with playerPaddle := r.playerPaddle.extend (pm.durations.get type) })
  | .SplitBall =>
    let nb := Ball.new S r.rng
    (pm, { r with balls := r.balls ++ [nb.1], rng := nb.2 })
  | .SlowMotion =>
    ({ pm with activeEffects := pm.activeEffects ++ [⟨type, pm.durations.get type⟩] },
     { r with balls := r.balls.map (fun ball => ball.setSpeedMultiplier (1 / 2)) })

/-- Member `PowerUpManager::revertEffect`. -/
def PowerUpManager.revertEffect (type : PowerUpType) (r : Refs) : Refs :=
  match type with
  | .ExtendPaddle => r
  | .SlowMotion => { r with balls := r.balls.map (fun ball => ball.setSpeedMultiplier 1) }
  | .SplitBall => r

/-- First loop of `PowerUpManager::update`, one key: decrement the spawn timer and,
when it is at or below zero, spawn and restart the timer at the configured interval. -/
def PowerUpManager.spawnStep (S : Sys) (dt : ℚ) (st : PowerUpManager × Nat)
    (k : PowerUpType) : PowerUpManager × Nat :=
  let pm1 := { st.1 with spawnTimers := st.1.spawnTimers.set k (st.1.spawnTimers.get k - dt) }
  if pm1.spawnTimers.get k ≤ 0 then
    let sp := pm1.spawnPowerUp S k st.2
    ({ sp.1 with spawnTimers := sp.1.spawnTimers.set k (sp.1.spawnIntervals.get k) }, sp.2)
  else (pm1, st.2)

/-- First loop of `PowerUpManager::update` over all keys of `spawnTimers`. -/
def PowerUpManager.spawnPhase (S : Sys) (dt : ℚ) (pm : PowerUpManager) (rng : Nat) :
    PowerUpManager × Nat :=
  TypeMap.keys.foldl (PowerUpManager.spawnStep S dt) (pm, rng)

/-- Second loop of `PowerUpManager::update`: advance every power-up and erase those
below the playfield. -/
def PowerUpManager.movePowerUps (S : Sys) (dt : ℚ) : List PowerUp → List PowerUp
  | [] => []
  | p :: ps =>
    let p1 := p.update dt
    if (p1.getBounds S).position.y > 600 then PowerUpManager.movePowerUps S dt ps
    else p1 :: PowerUpManager.movePowerUps S dt ps

/-- Inner loop of the third loop: does the power-up intersect some ball. -/
def PowerUpManager.hitsSomeBall (S : Sys) (p : PowerUp) (balls : List Ball) : Bool :=
  balls.any (fun ball => ((p.getBounds S).findIntersection (ball.getBounds S)).isSome)

/-- Third loop of `PowerUpManager::update`: every power-up that intersects a ball
applies its effect and is erased. Returns the power-ups kept. -/
def PowerUpManager.collectPowerUps (S : Sys) :
    List PowerUp → PowerUpManager × Refs → List PowerUp × (PowerUpManager × Refs)
  | [], st => ([], st)
  | p :: ps, st =>
    if PowerUpManager.hitsSomeBall S p st.2.balls then
      PowerUpManager.collectPowerUps S ps (st.1.applyEffect S p.getType st.2)
    else
      let rest := PowerUpManager.collectPowerUps S ps st
      (p :: rest.1, rest.2)

/-- Fourth loop of `PowerUpManager::update`: decrement every effect timer; an effect at
or below zero is reverted and erased. Returns the effects kept. -/
def PowerUpManager.updateEffects (dt : ℚ) : List ActiveEffect → Refs → List ActiveEffect × Refs
  | [], r => ([], r)
  | e :: es, r =>
    let e1 : ActiveEffect := { e with timeLeft := e.timeLeft - dt }
    if e1.timeLeft ≤ 0 then
      PowerUpManager.updateEffects dt es (PowerUpManager.revertEffect e1.type r)
    else
      let rest := PowerUpManager.updateEffects dt es r
      (e1 :: rest.1, rest.2)

/-- Member `PowerUpManager::update`. -/
def PowerUpManager.update (S : Sys) (pm : PowerUpManager) (dt : ℚ) (r : Refs) :
    PowerUpManager × Refs :=
  let s1 := PowerUpManager.spawnPhase S dt pm r.rng
  let pm2 := { s1.1 with powerUps := PowerUpManager.movePowerUps S dt s1.1.powerUps }
  let c := PowerUpManager.collectPowerUps S pm2.powerUps (pm2, { r with rng := s1.2 })
  let pm3 := { c.2.1 with powerUps := c.1 }
  let e := PowerUpManager.updateEffects dt pm3.activeEffects c.2.2
  ({ pm3 with activeEffects := e.1 }, e.2)

/-! ## Game (`Game.cpp`) -/

/-- Constant `fixedDt = 1.0f / 60.0f`, taken as the exact quotient; the compiled
constant is the binary32 number nearest to it, `8947849 / 2 ^ 29`. -/
def fixedDt : ℚ := 1 / 60

/-- Keyboard state read by one call of `Game::update` (`sf::Keyboard::isKeyPressed` for
the keys W, Up, S and Down). -/
structure Keys where
  w : Bool
  up : Bool
  s : Bool
  down : Bool
deriving DecidableEq, Repr

/-- Game record (`class Game`), without the window, the clock and the title, and with
the state `rng` of the process-wide pseudo-random generator. -/
structure Game where
  playerPaddle : Paddle
  botPaddle : Paddle
  balls : List Ball
  playerScore : Int
  botScore : Int
  paused : Bool
  powerUpManager : PowerUpManager
  serverMode : Bool
  botAction : Int
  rng : Nat
deriving DecidableEq, Repr

/-- Constructor `Game::Game(bool sm)`, run with the generator in state `rng`. -/
def Game.new (S : Sys) (sm : Bool) (rng : Nat) : Game :=
  let nb := Ball.new S rng
  ⟨Paddle.new true, Paddle.new false, [] ++ [nb.1], 0, 0, false, PowerUpManager.new, sm, 1, nb.2⟩

/-- Member `Game::reset`. -/
def Game.reset (S : Sys) (g : Game) : Game :=
  let nb := Ball.new S g.rng
  { g with balls := [] ++ [nb.1], rng := nb.2,
           playerPaddle := g.playerPaddle.reset, botPaddle := g.botPaddle.reset }

/-- Member `Game::setBotAction`. -/
def Game.setBotAction (g : Game) (action : Int) : Game := { g with botAction := action }

/-- Phase 1 of `Game::update`: the player paddle follows the keyboard. -/
def Game.movePlayer (g : Game) (keys : Keys) (dt : ℚ) : Game :=
  let g1 := if keys.w || keys.up then { g with playerPaddle := g.playerPaddle.moveUp dt } else g
  if keys.s || keys.down then { g1 with playerPaddle := g1.playerPaddle.moveDown dt } else g1

/-- Shape mover `botPaddle.shape.move` followed by the clamp of the built-in opponent. -/
def Game.internalBot (g : Game) (ball0 : Ball) (dt : ℚ) : Game :=
  let ballY := ball0.getPosition.y
  let botY := g.botPaddle.getPosition.y
  let diff := ballY - botY
  let maxSpeed : ℚ := 400
  if |diff| > 10 then
    let moveAmount := min (maxSpeed * dt) |diff|
    if diff > 0 then
      let bp := g.botPaddle.setShapePosition (g.botPaddle.shape.position.add ⟨0, moveAmount⟩)
      if bp.shape.position.y + bp.shape.size.y > 600 then
        { g with botPaddle := bp.setShapePosition ⟨bp.shape.position.x, 600 - bp.shape.size.y⟩ }
      else { g with botPaddle := bp }
    else
      let bp := g.botPaddle.setShapePosition (g.botPaddle.shape.position.add ⟨0, -moveAmount⟩)
      if bp.shape.position.y < 0 then
        { g with botPaddle := bp.setShapePosition ⟨bp.shape.position.x, 0⟩ }
      else { g with botPaddle := bp }
  else g

/-- Phase 1 of `Game::update`, second half: the opponent paddle follows the built-in
logic in local mode and the stored action otherwise. -/
def Game.moveBot (g : Game) (dt : ℚ) : Game :=
  match g.serverMode, g.balls with
  | false, ball0 :: _ => g.internalBot ball0 dt
  | _, _ =>
    if g.botAction = -1 then { g with botPaddle := g.botPaddle.moveDown dt }
    else if g.botAction = 1 then { g with botPaddle := g.botPaddle.moveUp dt }
    else g

/-- Phase 2 of `Game::update`: every ball moves. -/
def Game.updateBalls (g : Game) (dt : ℚ) : Game :=
  { g with balls := g.balls.map (fun ball => ball.update dt) }

/-- Body of the collision loop for one ball. -/
def Game.collideBall (S : Sys) (playerPaddle botPaddle : Paddle) (ball : Ball) : Ball :=
  let b1 :=
    if ((ball.getBounds S).findIntersection playerPaddle.getBounds).isSome then ball.bounceX
    else ball
  if ((b1.getBounds S).findIntersection botPaddle.getBounds).isSome then b1.bounceX else b1

/-- Phase 3 of `Game::update`: paddle collisions. -/
def Game.collisions (S : Sys) (g : Game) : Game :=
  { g with balls := g.balls.map (Game.collideBall S g.playerPaddle g.botPaddle) }

/-- Phase 4 of `Game::update`: the extension timer of the player paddle. -/
def Game.updateExtend (g : Game) (dt : ℚ) : Game :=
  if g.playerPaddle.extended then
    let p1 := { g.playerPaddle with extendTimeLeft := g.playerPaddle.extendTimeLeft - dt }
    if p1.extendTimeLeft ≤ 0 then
      { g with playerPaddle := ({ p1 with extended := false }).setShapeSize p1.originalSize }
    else { g with playerPaddle := p1 }
  else g

/-- Phase 5 of `Game::update`: the power-up manager runs on the player paddle and the
ball vector. -/
def Game.updatePowerUps (S : Sys) (g : Game) (dt : ℚ) : Game :=
  let r := g.powerUpManager.update S dt ⟨g.playerPaddle, g.balls, g.rng⟩
  { g with powerUpManager := r.1, playerPaddle := r.2.playerPaddle, balls := r.2.balls,
           rng := r.2.rng }

/-- Value stored in a C++ `int` (32 bits, two's complement) for the integer `x`. The
scores are `int` members; `botScore++` and `playerScore++` at 2147483647 leave the
range (undefined in C++, the compiled increment wraps to -2147483648). -/
def wrapInt (x : Int) : Int := (x + 2147483648) % 4294967296 - 2147483648

/-- Scoring loop of `Game::update` over the balls still to visit: the first ball out
of bounds scores, resets the match and ends the loop. -/
def Game.scoringLoop (S : Sys) (g : Game) : List Ball → Game
  | [] => g
  | ball :: rest =>
    if ball.getPosition.x < 0 then
      Game.reset S { g with botScore := wrapInt (g.botScore + 1) }
    else if ball.getPosition.x > 800 then
      Game.reset S { g with playerScore := wrapInt (g.playerScore + 1) }
    else Game.scoringLoop S g rest

/-- Phase 6 of `Game::update`: scoring and reset. -/
def Game.scoring (S : Sys) (g : Game) : Game := Game.scoringLoop S g g.balls

/-- Member `Game::update`, reading the keyboard state `keys`. -/
def Game.update (S : Sys) (keys : Keys) (g : Game) (dt : ℚ) : Game :=
  let g1 := g.movePlayer keys dt
  let g2 := g1.moveBot dt
  let g3 := g2.updateBalls dt
  let g4 := g3.collisions S
  let g5 := g4.updateExtend dt
  let g6 := g5.updatePowerUps S dt
  g6.scoring S

/-! ## State encoder (`Game::getStateJson`) -/

/-- Decimal text of an `int` (`std::to_string(int)`). -/
def intToString (i : Int) : String := toString i

/-- Text appended for one ball inside the loop of `getStateJson`, without the comma. -/
def Game.ballJson (S : Sys) (ball : Ball) : String :=
  let pos := ball.getPosition
  "\x7b\"x\":" ++ S.to_string pos.x ++ ",\"y\":" ++ S.to_string pos.y ++ ",\"vx\":" ++
    S.to_string ball.velocity.x ++ ",\"vy\":" ++ S.to_string ball.velocity.y ++ "\x7d"

/-- Loop of `getStateJson` over the balls from index `i` on; `size` is `balls.size()`.
The comparison `i < balls.size() - 1` is only evaluated with `size ≥ 1`, where the
unsigned subtraction does not wrap. -/
def Game.ballsJsonLoop (S : Sys) (size : Nat) : List Ball → Nat → String → String
  | [], _, stateJson => stateJson
  | ball :: rest, i, stateJson =>
    let s1 := stateJson ++ Game.ballJson S ball
    let s2 := if i < size - 1 then s1 ++ "," else s1
    Game.ballsJsonLoop S size rest (i + 1) s2

/-- Text of one paddle: centre position and size of its shape. -/
def Game.paddleJson (S : Sys) (p : Paddle) : String :=
  let pos := p.getPosition
  "\x7b\"x\":" ++ S.to_string pos.x ++ ",\"y\":" ++ S.to_string pos.y ++ ",\"width\":" ++
    S.to_string p.shape.size.x ++ ",\"height\":" ++ S.to_string p.shape.size.y ++ "\x7d,"

/-- Member `Game::getStateJson`. -/
def Game.getStateJson (S : Sys) (g : Game) : String :=
  let stateJson := "\x7b"
  let stateJson := stateJson ++ "\"balls\":["
  let stateJson := Game.ballsJsonLoop S g.balls.length g.balls 0 stateJson
  let stateJson := stateJson ++ "],"
  let stateJson := stateJson ++ ("\"player_paddle\":" ++ Game.paddleJson S g.playerPaddle)
  let stateJson := stateJson ++ ("\"bot_paddle\":" ++ Game.paddleJson S g.botPaddle)
  let stateJson := stateJson ++ ("\"scores\":\x7b\"player\":" ++ intToString g.playerScore ++
    ",\"bot\":" ++ intToString g.botScore ++ "\x7d,")
  let stateJson := stateJson ++ "\"power_ups\":[],"
  let stateJson := stateJson ++ "\"active_effects\":[]"
  let stateJson := stateJson ++ "\x7d"
  "\x7b\"data\":" ++ stateJson ++ "\x7d"

/-! ## Action parser and per-connection loop (`Game::handleClient`) -/

/-- Value `std::string::npos` of a 64-bit `size_t`. -/
def npos : Nat := 2 ^ 64 - 1

/-- Search `std::string::find(pat)` from the front; `i` is the index of the head of the
remaining text. -/
def findFrom (pat : List Char) : List Char → Nat → Nat
  | [], i => if pat.isEmpty then i else npos
  | c :: cs, i => if pat.isPrefixOf (c :: cs) then i else findFrom pat cs (i + 1)

/-- Member `std::string::find(pat)`: index of the first occurrence, `npos` when absent. -/
def find (str pat : List Char) : Nat := findFrom pat str 0

/-- Member `std::string::find_first_of(chars, start)`. -/
def find_first_of (str chars : List Char) (start : Nat) : Nat :=
  match (str.drop start).findIdx? (fun c => chars.contains c) with
  | some k => start + k
  | none => npos

/-- Exceptions derived from `std::exception` that the parser can raise. -/
inductive StdException where
  | invalid_argument
  | out_of_range
deriving DecidableEq, Repr

/-- Member `std::string::substr(start, count)`: raises when `start` is past the end. -/
def substr (str : List Char) (start count : Nat) : Except StdException (List Char) :=
  if start > str.length then .error .out_of_range else .ok ((str.drop start).take count)

/-- Whitespace in the C locale (`isspace`). -/
def isSpace (c : Char) : Bool := c.toNat = 32 || (9 ≤ c.toNat && c.toNat ≤ 13)

/-- Value of a run of decimal digits. -/
def digitsValue (ds : List Char) : Nat := ds.foldl (fun a c => 10 * a + (c.toNat - 48)) 0

/-- Function `std::stoi(str)`: skip whitespace, read an optional sign and the longest
run of decimal digits; raise `invalid_argument` without digits and `out_of_range` when
the value is no 32-bit `int`. -/
def stoi (str : List Char) : Except StdException Int :=
  let s1 := str.dropWhile isSpace
  let neg : Bool := s1.head? = some (Char.ofNat 45)
  let s2 := match s1 with
    | c :: r => if c = Char.ofNat 45 ∨ c = Char.ofNat 43 then r else s1
    | [] => s1
  let ds := s2.takeWhile Char.isDigit
  if ds.isEmpty then .error .invalid_argument
  else
    let v : Int := if neg then -(digitsValue ds : Int) else (digitsValue ds : Int)
    if v < -2147483648 ∨ v > 2147483647 then .error .out_of_range else .ok v

/-- The searched key, the nine characters `"action":`. -/
def actionKey : List Char := [Char.ofNat 34, 'a', 'c', 't', 'i', 'o', 'n', Char.ofNat 34, ':']

/-- Argument of `stoi` in `handleClient`: `msg.substr(start, end - start)` with
`start = pos + 10` and `end = msg.find_first_of(",}", start)`. -/
def tokenText (msg : List Char) (pos : Nat) : Except StdException (List Char) :=
  let start := (pos + 10) % 2 ^ 64
  let end_ := find_first_of msg [',', Char.ofNat 125] start
  substr msg start ((end_ + 2 ^ 64 - start) % 2 ^ 64)

/-- Body of the `try` block of `handleClient`: the token text converted by `stoi`; an
exception of `substr` or of `stoi` leaves the block. -/
def actionToken (msg : List Char) (pos : Nat) : Except StdException Int :=
  match tokenText msg pos with
  | .error e => .error e
  | .ok tok => stoi tok

/-- Message handling of `handleClient` (the body of `if (len > 0)`). -/
def Game.handleMessage (g : Game) (msg : List Char) : Game :=
  let pos := find msg actionKey
  if pos ≠ npos then
    match actionToken msg pos with
    | .ok action => g.setBotAction action
    | .error _ => g
  else g

/-- Text of a NUL-terminated buffer (`std::string msg(buffer)`). -/
def cString (buffer : List Char) : List Char := buffer.takeWhile (fun c => c ≠ Char.ofNat 0)

/-- Inner loop of `handleClient`: `while (accumulator >= fixedDt)`. The counter `n` is
the number of calls of `update` made so far in this iteration; `kb n` is the keyboard
state read by the next call. -/
def Game.tickLoop (S : Sys) (kb : Nat → Keys) (g : Game) (accumulator : ℚ) (n : Nat) :
    Game × ℚ × Nat :=
  if accumulator ≥ fixedDt then
    Game.tickLoop S kb (g.update S (kb n) fixedDt) (accumulator - fixedDt) (n + 1)
  else (g, accumulator, n)
termination_by (⌊accumulator * 60⌋).toNat
decreasing_by
  simp only [fixedDt] at *
  have h1 : (accumulator - 1 / 60) * 60 = accumulator * 60 - 1 := by ring
  have h2 : (1 : ℚ) ≤ accumulator * 60 := by linarith
  have h3 : (1 : ℤ) ≤ ⌊accumulator * 60⌋ := Int.le_floor.mpr (by exact_mod_cast h2)
  rw [h1, Int.floor_sub_one]
  omega

/-- What one iteration of `handleClient` observes from outside: the return value of
`send`, the return value of `recv` with the bytes it stored, the seconds returned by
`clock.restart()`, and the keyboard states read by the calls of `update`. -/
structure IterIO where
  sent : Int
  len : Int
  buffer : List Char
  elapsed : ℚ
  kb : Nat → Keys

/-- Text `msg` built from the received bytes: `buffer[len] = 0; std::string msg(buffer)`. -/
def IterIO.message (io : IterIO) : List Char := cString (io.buffer.take io.len.toNat)

/-- Outcome of one iteration of the loop of `handleClient`. -/
inductive LoopStep where
  | next (g : Game) (accumulator : ℚ) (updates : Nat)
  | stop (g : Game)

/-- Does the session go on to the next iteration. -/
def LoopStep.continues : LoopStep → Bool
  | .next _ _ _ => true
  | .stop _ => false

/-- Game state at the end of the iteration. -/
def LoopStep.game : LoopStep → Game
  | .next g _ _ => g
  | .stop g => g

/-- Number of calls of `Game::update` made by the iteration. -/
def LoopStep.updates : LoopStep → Nat
  | .next _ _ n => n
  | .stop _ => 0

/-- One iteration of the `while (true)` loop of `handleClient`. -/
def Game.handleClientIter (S : Sys) (g : Game) (accumulator : ℚ) (io : IterIO) : LoopStep :=
  if io.sent = -1 then .stop g
  else
    let received : Option Game :=
      if io.len > 0 then some (g.handleMessage io.message)
      else if io.len = 0 then none
      else none
    match received with
    | none => .stop g
    | some g1 =>
      let dt := io.elapsed
      let r := Game.tickLoop S io.kb g1 (accumulator + dt) 0
      .next r.1 r.2.1 r.2.2

/-! ## Definitions used to state the properties -/

/-- Texts separated by commas: `B1,...,Bk`. -/
def joinComma : List String → String
  | [] => ""
  | [a] => a
  | a :: b :: rest => a ++ "," ++ joinComma (b :: rest)

/-- Object with four float members, `{"k1":v1,"k2":v2,"k3":v3,"k4":v4}`. -/
def jsonObject4 (S : Sys) (k1 : String) (v1 : ℚ) (k2 : String) (v2 : ℚ) (k3 : String) (v3 : ℚ)
    (k4 : String) (v4 : ℚ) : String :=
  "\x7b\"" ++ k1 ++ "\":" ++ S.to_string v1 ++ ",\"" ++ k2 ++ "\":" ++ S.to_string v2 ++
    ",\"" ++ k3 ++ "\":" ++ S.to_string v3 ++ ",\"" ++ k4 ++ "\":" ++ S.to_string v4 ++ "\x7d"

/-- The `{x,y,vx,vy}` object of a ball: centre position and velocity. -/
def specBallObject (S : Sys) (ball : Ball) : String :=
  jsonObject4 S "x" (ball.shape.position.x + 10) "y" (ball.shape.position.y + 10)
    "vx" ball.velocity.x "vy" ball.velocity.y

/-- The `{x,y,width,height}` object of a paddle: its reported position (the centre of
its rectangle) and the size of its rectangle. -/
def specPaddleObject (S : Sys) (p : Paddle) : String :=
  jsonObject4 S "x" (p.shape.position.x + p.shape.size.x / 2)
    "y" (p.shape.position.y + p.shape.size.y / 2) "width" p.shape.size.x "height" p.shape.size.y

/-- The server-to-client message as the protocol describes it. -/
def specStateJson (S : Sys) (g : Game) : String :=
  "\x7b\"data\":\x7b\"balls\":[" ++ joinComma (g.balls.map (specBallObject S)) ++
    "],\"player_paddle\":" ++ specPaddleObject S g.playerPaddle ++
    ",\"bot_paddle\":" ++ specPaddleObject S g.botPaddle ++
    ",\"scores\":\x7b\"player\":" ++ intToString g.playerScore ++
    ",\"bot\":" ++ intToString g.botScore ++
    "\x7d,\"power_ups\":[],\"active_effects\":[]\x7d\x7d"

/-- Phases 1 to 4 of `Game::update`: the state on which the power-up manager runs. -/
def Game.prePowerUps (S : Sys) (keys : Keys) (g : Game) (dt : ℚ) : Game :=
  ((((g.movePlayer keys dt).moveBot dt).updateBalls dt).collisions S).updateExtend dt

/-- What one tick receives from outside the simulation: the keyboard state read by
`Game::update` and, when a message carried one, the opponent action handed to
`setBotAction` before the tick. -/
structure TickInput where
  keys : Keys
  action : Option Int
deriving DecidableEq, Repr

/-- One tick: the supplied action, if any, is stored, then `update(fixedDt)` runs. -/
def Game.tick (S : Sys) (g : Game) (i : TickInput) : Game :=
  let g1 := match i.action with
    | some a => g.setBotAction a
    | none => g
  g1.update S i.keys fixedDt

/-- States after each tick of a run fed the given inputs. -/
def Game.runFrom (S : Sys) : Game → List TickInput → List Game
  | _, [] => []
  | g, i :: rest => g.tick S i :: Game.runFrom S (g.tick S i) rest

/-- Ball of radius 10 with top-left corner `(x, y)`, velocity `(vx, vy)` and speed
multiplier `mult`. -/
def ballAt (x y vx vy mult : ℚ) : Ball := ⟨⟨vx, vy⟩, ⟨10, ⟨x, y⟩⟩, ⟨400, 300⟩, mult⟩

/-- Inbound message in compact form: `{"action":1}`. -/
def compactMsg : List Char := "\x7b\"action\":1\x7d".toList


/-- Inbound message of the parsing scenario: `"foo":1,"action":-1,"bar":2}`. -/
def scenarioMsg : List Char := "\"foo\":1,\"action\":-1,\"bar\":2\x7d".toList

/-- Keyboard state with no key pressed. -/
def Keys.none : Keys := ⟨false, false, false, false⟩

/-- Cosine stand-in of the reference environment: Taylor polynomial of degree 12. -/
def refCos (x : ℚ) : ℚ :=
  1 - x ^ 2 / 2 + x ^ 4 / 24 - x ^ 6 / 720 + x ^ 8 / 40320 - x ^ 10 / 3628800 + x ^ 12 / 479001600

/-- Sine stand-in of the reference environment: Taylor polynomial of degree 11. -/
def refSin (x : ℚ) : ℚ :=
  x - x ^ 3 / 6 + x ^ 5 / 120 - x ^ 7 / 5040 + x ^ 9 / 362880 - x ^ 11 / 39916800

/-- Float printer stand-in of the reference environment: six decimals, rounded to the
nearest. -/
def refToString (q : ℚ) : String :=
  let n : Nat := (⌊|q| * 1000000 + 1 / 2⌋).toNat
  let frac := toString (n % 1000000)
  (if q < 0 then "-" else "") ++ toString (n / 1000000) ++ "." ++
    String.mk (List.replicate (6 - frac.length) '0') ++ frac

/-- Reference environment used to evaluate the definitions on concrete inputs: the
sample generator of the C standard (`next = next * 1103515245 + 12345`), polynomial
trigonometry, and the exact box of side `2r` as bounds of a circle. -/
def refSys : Sys where
  srand := fun seed => seed
  rand := fun st =>
    let next := (st * 1103515245 + 12345) % 2 ^ 32
    ((next / 65536) % 32768, next)
  cos := refCos
  sin := refSin
  to_string := refToString
  circleBounds := fun r => ⟨⟨0, 0⟩, ⟨2 * r, 2 * r⟩⟩

/-- Server-mode game of the reference environment as constructed, except that its ball
list is `balls`. -/
def gameWithBalls (balls : List Ball) : Game := { Game.new refSys true 0 with balls := balls }

/-! ## Reachable states -/

/-- States a game object passes through: the constructed game (run with the generator
in any state), and from there any sequence of calls of `setBotAction` and of
`update` whose time step satisfies `D`. -/
inductive Reachable (S : Sys) (sm : Bool) (D : ℚ → Prop) : Game → Prop where
  | init (rng : Nat) : Reachable S sm D (Game.new S sm rng)
  | setBotAction (g : Game) (action : Int) :
      Reachable S sm D g → Reachable S sm D (g.setBotAction action)
  | update (g : Game) (keys : Keys) (dt : ℚ) :
      D dt → Reachable S sm D g → Reachable S sm D (g.update S keys dt)

/-- Keyboard state with W and S both pressed. -/
def Keys.upAndDown : Keys := ⟨true, false, true, false⟩

/-- Inbound message carrying the action 7: `{"action": 7}`. -/
def sevenMsg : List Char := "\x7b\"action\": 7\x7d".toList

/-- Directional move of a paddle. -/
inductive Move where
  | up
  | down
deriving DecidableEq, Repr

/-- Member call that performs a move: `moveUp(dt)` or `moveDown(dt)`. -/
def Paddle.applyMove (p : Paddle) (dt : ℚ) : Move → Paddle
  | .up => p.moveUp dt
  | .down => p.moveDown dt

/-- Moves that `Game::update` performs on the player paddle, in order: the test of
the up keys and the test of the down keys follow each other without an `else`. -/
def Game.playerMoves (keys : Keys) : List Move :=
  (if keys.w || keys.up then [Move.up] else []) ++
    (if keys.s || keys.down then [Move.down] else [])

/-- Moves that `Game::update` performs on the opponent paddle when it follows the
stored action: `moveDown` for -1, else `moveUp` for 1, else none. -/
def Game.actionMoves (g : Game) : List Move :=
  if g.botAction = -1 then [Move.down] else if g.botAction = 1 then [Move.up] else []

/-- Server-mode game of the reference environment after one call of `update` with W
held and `dt = 247/600`, which takes the player paddle from 250 to 3. -/
def gameNearTop : Game :=
  (Game.new refSys true 0).update refSys ⟨true, false, false, false⟩ (247 / 600)

/-! ## Generator states named in the properties -/

/-- Generator state left behind by a ball construction: seeded with 42, one draw
consumed. -/
def Sys.afterBall (S : Sys) : Nat := (S.rand (S.srand 42)).2

/-- Second draw of the sequence seeded with 42. -/
def Sys.secondDraw (S : Sys) : Nat := (S.rand S.afterBall).1

/-! ## Decimal tokens -/

/-- Nearest integer, ties to the even one. -/
def roundEven (t : ℚ) : Int :=
  if t - ⌊t⌋ < 1 / 2 then ⌊t⌋
  else if t - ⌊t⌋ > 1 / 2 then ⌊t⌋ + 1
  else if ⌊t⌋ % 2 = 0 then ⌊t⌋ else ⌊t⌋ + 1

/-- Position of the leading binary digit of `n`, that is `⌊log₂ n⌋` for `n > 0`, when
`fuel` is at least that position. -/
def log2Floor : Nat → Nat → Nat
  | 0, _ => 0
  | fuel + 1, n => if n < 2 then 0 else log2Floor fuel (n / 2) + 1

/-- The power `2 ^ e` for an integer exponent. -/
def pow2 (e : Int) : ℚ :=
  if 0 ≤ e then ((2 ^ e.toNat : Nat) : ℚ) else 1 / ((2 ^ (-e).toNat : Nat) : ℚ)

/-- Binary exponent of a non-zero rational: the `e` with `2 ^ e ≤ |q| < 2 ^ (e + 1)`. -/
def binade (q : ℚ) : Int :=
  let e0 : Int := (log2Floor q.num.natAbs q.num.natAbs : Int) - (log2Floor q.den q.den : Int)
  if pow2 e0 ≤ |q| then e0 else e0 - 1

/-- Rounding of an exact result to binary32: 24 significant binary digits, exponents
from -126 (subnormal numbers below), nearest with ties to even. Results of magnitude
`2 ^ 128` and more, which binary32 turns into infinities, do not occur below. -/
def f32 (q : ℚ) : ℚ :=
  if q = 0 then 0
  else
    let ulp : ℚ := pow2 (max (binade q) (-126) - 23)
    (roundEven (q / ulp) : ℚ) * ulp

/-- Constant `fixedDt` as compiled: the binary32 quotient `1.0f / 60.0f`. -/
def fixedDt32 : ℚ := f32 (1 / 60)

/-- Member `Paddle::moveUp` in binary32 arithmetic. -/
def Paddle.moveUp32 (p : Paddle) (dt : ℚ) : Paddle :=
  let p1 := p.setShapePosition
    ⟨f32 (p.shape.position.x + 0), f32 (p.shape.position.y + f32 (-p.speed * dt))⟩
  if p1.shape.position.y < 0 then p1.setShapePosition ⟨p1.shape.position.x, 0⟩ else p1

/-- Member `Paddle::moveDown` in binary32 arithmetic: the clamp test compares the
rounded sum of `y` and the height with 600. -/
def Paddle.moveDown32 (p : Paddle) (dt : ℚ) : Paddle :=
  let p1 := p.setShapePosition
    ⟨f32 (p.shape.position.x + 0), f32 (p.shape.position.y + f32 (p.speed * dt))⟩
  if f32 (p1.shape.position.y + p1.shape.size.y) > 600 then
    p1.setShapePosition ⟨p1.shape.position.x, f32 (600 - p1.shape.size.y)⟩
  else p1

/-- The opponent paddle of a new server-mode game after `ups` ticks of `Game::update`
with action 1 followed by `downs` ticks with action -1, in binary32 arithmetic with
`dt = fixedDt`: each of these ticks calls `moveUp(fixedDt)`, respectively
`moveDown(fixedDt)`, on it, and no tick among the first 79 resets it, the ball
needing 80 ticks at least to leave the field. -/
def botPaddleAfter (ups downs : Nat) : Paddle :=
  (fun p => p.moveDown32 fixedDt32)^[downs]
    ((fun p => p.moveUp32 fixedDt32)^[ups] (Paddle.new false))

/-! ## Theorems -/

/-! ### Lemmas shared by the per-connection loop -/

theorem reset_botAction (S : Sys) (g : Game) : (Game.reset S g).botAction = g.botAction := by
  simp [Game.reset]

theorem scoringLoop_botAction (S : Sys) (g : Game) (bs : List Ball) :
    (Game.scoringLoop S g bs).botAction = g.botAction := by
  induction bs with
  | nil => rfl
  | cons b rest ih =>
    simp only [Game.scoringLoop]
    split_ifs <;> simp [reset_botAction, ih]

theorem update_botAction (S : Sys) (keys : Keys) (g : Game) (dt : ℚ) :
    (g.update S keys dt).botAction = g.botAction := by
  have h1 : (g.movePlayer keys dt).botAction = g.botAction := by
    simp only [Game.movePlayer]; split_ifs <;> rfl
  have h2 : ∀ g : Game, (g.moveBot dt).botAction = g.botAction := by
    intro g
    simp only [Game.moveBot]
    split
    · simp only [Game.internalBot]; split_ifs <;> rfl
    · split_ifs <;> rfl
  have h5 : ∀ g : Game, (g.updateExtend dt).botAction = g.botAction := by
    intro g; simp only [Game.updateExtend]; split_ifs <;> rfl
  simp only [Game.update, Game.scoring, scoringLoop_botAction]
  simp only [Game.updatePowerUps, h5, Game.collisions, Game.updateBalls, h2, h1]

theorem tickLoop_botAction (S : Sys) (kb : Nat → Keys) (g : Game) (a : ℚ) (n : Nat) :
    (Game.tickLoop S kb g a n).1.botAction = g.botAction := by
  induction g, a, n using Game.tickLoop.induct S kb with
  | case1 g a n h ih => rw [Game.tickLoop, if_pos h, ih, update_botAction]
  | case2 g a n h => rw [Game.tickLoop, if_neg h]

/-- An iteration that sends and receives a message continues the session, and its
opponent action is the one left by the message handling. -/
theorem handleClientIter_received (S : Sys) (g : Game) (accumulator : ℚ) (io : IterIO)
    (hsent : io.sent ≠ -1) (hlen : 0 < io.len) :
    g.handleClientIter S accumulator io =
      .next (Game.tickLoop S io.kb (g.handleMessage io.message) (accumulator + io.elapsed) 0).1
        (Game.tickLoop S io.kb (g.handleMessage io.message) (accumulator + io.elapsed) 0).2.1
        (Game.tickLoop S io.kb (g.handleMessage io.message) (accumulator + io.elapsed) 0).2.2 := by
  simp [Game.handleClientIter, hsent, hlen]

theorem handleClientIter_botAction (S : Sys) (g : Game) (accumulator : ℚ) (io : IterIO)
    (hsent : io.sent ≠ -1) (hlen : 0 < io.len) :
    (g.handleClientIter S accumulator io).continues = true ∧
    (g.handleClientIter S accumulator io).game.botAction =
      (g.handleMessage io.message).botAction := by
  rw [handleClientIter_received S g accumulator io hsent hlen]
  exact ⟨rfl, tickLoop_botAction S io.kb _ _ 0⟩

theorem find_scenarioMsg : find scenarioMsg actionKey = 8 := by decide

theorem actionToken_scenarioMsg : actionToken scenarioMsg 8 = .ok 1 := by rfl

theorem handleMessage_scenarioMsg (g : Game) : (g.handleMessage scenarioMsg).botAction = 1 := by
  simp [Game.handleMessage, find_scenarioMsg, actionToken_scenarioMsg, npos, Game.setBotAction]

/-! ### C1 -/

/-- C1, evaluated on the code: handling the scenario message `"foo":1,"action":-1,"bar":2}`
in an iteration of `handleClient` continues the session with opponent action `1`, not
`-1`: the token is read from the tenth character after the start of the key, which
skips the minus sign. -/
theorem C1_scenario_yields_one (S : Sys) (g : Game) (accumulator elapsed : ℚ)
    (kb : Nat → Keys) :
    (g.handleMessage scenarioMsg).botAction = 1 ∧
    (g.handleClientIter S accumulator ⟨29, 28, scenarioMsg, elapsed, kb⟩).continues = true ∧
    (g.handleClientIter S accumulator ⟨29, 28, scenarioMsg, elapsed, kb⟩).game.botAction = 1 := by
  refine ⟨handleMessage_scenarioMsg g, ?_⟩
  have h := handleClientIter_botAction S g accumulator ⟨29, 28, scenarioMsg, elapsed, kb⟩
    (by show (29 : Int) ≠ -1; decide) (by show (0 : Int) < 28; decide)
  have hm : (⟨29, 28, scenarioMsg, elapsed, kb⟩ : IterIO).message = scenarioMsg := by
    show cString (scenarioMsg.take (28 : Int).toNat) = scenarioMsg
    decide
  rw [hm] at h
  exact ⟨h.1, h.2.trans (handleMessage_scenarioMsg g)⟩

/-! ### C2 -/

theorem findFrom_bound (pat : List Char) (l : List Char) (i : Nat) :
    findFrom pat l i = npos ∨ findFrom pat l i + pat.length ≤ i + l.length := by
  induction l generalizing i with
  | nil =>
    simp only [findFrom]
    split_ifs with h
    · right
      have : pat = [] := by simpa using h
      simp [this]
    · left; rfl
  | cons c cs ih =>
    simp only [findFrom]
    split_ifs with h
    · right
      have hp : pat <+: (c :: cs) := List.isPrefixOf_iff_prefix.mp h
      have := hp.length_le
      omega
    · rcases ih (i + 1) with h1 | h1
      · left; exact h1
      · right; simp only [List.length_cons]; omega

theorem message_length_le (io : IterIO) (hmax : io.len ≤ 4095) : io.message.length ≤ 4095 := by
  have h1 : io.message.length ≤ (io.buffer.take io.len.toNat).length :=
    (List.takeWhile_sublist _).length_le
  have h2 : (io.buffer.take io.len.toNat).length ≤ io.len.toNat := List.length_take_le _ _
  omega

theorem stoi_nil : stoi [] = .error .invalid_argument := by rfl

/-- A message that ends before the token starts yields no action. -/
theorem actionToken_short (msg : List Char) (hmax : msg.length ≤ 4095)
    (hfound : find msg actionKey ≠ npos) (hshort : msg.length ≤ find msg actionKey + 10) :
    ∃ e, actionToken msg (find msg actionKey) = .error e := by
  have hb := findFrom_bound actionKey msg 0
  have hk : actionKey.length = 9 := by decide
  rcases hb with hb | hb
  · exact absurd hb hfound
  · have hpos : find msg actionKey + 9 ≤ msg.length := by
      simpa [find, hk] using hb
    have hstart : (find msg actionKey + 10) % 2 ^ 64 = find msg actionKey + 10 :=
      Nat.mod_eq_of_lt (by omega)
    simp only [actionToken, tokenText, hstart, substr]
    split_ifs with h
    · exact ⟨_, rfl⟩
    · have hd : List.drop (find msg actionKey + 10) msg = [] :=
        List.drop_eq_nil_of_le hshort
      simp only [hd, List.take_nil]
      exact ⟨_, stoi_nil⟩

theorem handleMessage_fail (g : Game) (msg : List Char)
    (h : find msg actionKey = npos ∨ ∃ e, actionToken msg (find msg actionKey) = .error e) :
    g.handleMessage msg = g := by
  simp only [Game.handleMessage]
  rcases h with h | ⟨e, h⟩
  · simp [h]
  · split_ifs
    · simp [h]
    · rfl

/-- C2: fail-open parsing. In an iteration of `handleClient` that sends the state and
receives a message (at most 4095 bytes, the size passed to `recv`), if the key
`"action":` is absent, or the message ends at or before the tenth character after the
start of the key, or `stoi` raises on the text taken, then the session continues and
the opponent action is the one the game had before. -/
theorem C2_fail_open (S : Sys) (g : Game) (accumulator : ℚ) (io : IterIO)
    (hsent : io.sent ≠ -1) (hlen : 0 < io.len) (hmax : io.len ≤ 4095)
    (hfail : find io.message actionKey = npos ∨
      io.message.length ≤ find io.message actionKey + 10 ∨
      ∃ tok e, tokenText io.message (find io.message actionKey) = .ok tok ∧
        stoi tok = .error e) :
    (g.handleClientIter S accumulator io).continues = true ∧
    (g.handleClientIter S accumulator io).game.botAction = g.botAction := by
  have h := handleClientIter_botAction S g accumulator io hsent hlen
  have hm : g.handleMessage io.message = g := by
    apply handleMessage_fail
    by_cases hf : find io.message actionKey = npos
    · exact Or.inl hf
    · right
      rcases hfail with h1 | h2 | ⟨tok, e, ht, hs⟩
      · exact absurd h1 hf
      · exact actionToken_short _ (message_length_le io hmax) hf h2
      · exact ⟨e, by simp [actionToken, ht, hs]⟩
  rw [hm] at h
  exact h

/-- Witness of C2: the compact message `{"action":1}` received by a new server-mode
game is ignored, because the text taken between the closing brace and itself is
empty; the session continues with the initial action. -/
theorem C2_fail_open_witness :
    ((Game.new refSys true 0).handleClientIter refSys 0
      ⟨100, 12, compactMsg, 1 / 60, fun _ => Keys.none⟩).continues = true ∧
    ((Game.new refSys true 0).handleClientIter refSys 0
      ⟨100, 12, compactMsg, 1 / 60, fun _ => Keys.none⟩).game.botAction =
      (Game.new refSys true 0).botAction :=
  C2_fail_open refSys (Game.new refSys true 0) 0
    ⟨100, 12, compactMsg, 1 / 60, fun _ => Keys.none⟩ (by decide) (by decide) (by decide)
    (Or.inr (Or.inr ⟨[], .invalid_argument, by rfl, by rfl⟩))

/-! ### C3 -/

theorem ballJson_eq (S : Sys) (ball : Ball) : Game.ballJson S ball = specBallObject S ball := by
  apply String.ext
  simp [Game.ballJson, specBallObject, jsonObject4, Ball.getPosition, Vector2f.add,
    String.data_append]

theorem paddleJson_eq (S : Sys) (p : Paddle) :
    Game.paddleJson S p = specPaddleObject S p ++ "," := by
  apply String.ext
  simp [Game.paddleJson, specPaddleObject, jsonObject4, Paddle.getPosition, Vector2f.add,
    String.data_append]

/-- The ball loop of `getStateJson` appends the ball objects separated by commas. -/
theorem ballsJsonLoop_eq (S : Sys) (size : Nat) (rest : List Ball) (i : Nat) (acc : String)
    (h : i + rest.length = size) :
    Game.ballsJsonLoop S size rest i acc = acc ++ joinComma (rest.map (specBallObject S)) := by
  induction rest generalizing i acc with
  | nil => simp [Game.ballsJsonLoop, joinComma]
  | cons b bs ih =>
    cases bs with
    | nil =>
      have hi : ¬ i < size - 1 := by simp at h; omega
      simp [Game.ballsJsonLoop, joinComma, hi, ballJson_eq]
    | cons c cs =>
      have hi : i < size - 1 := by simp at h; omega
      have h2 : i + 1 + (c :: cs).length = size := by simp at h ⊢; omega
      rw [Game.ballsJsonLoop]
      simp only [hi, if_true]
      rw [ih (i + 1) _ h2, ballJson_eq]
      simp [joinComma, String.append_assoc]

/-- C4: for every game state, `getStateJson` returns
`{"data":{"balls":[B1,...,Bk],"player_paddle":P,"bot_paddle":Q,"scores":{"player":I,"bot":J},"power_ups":[],"active_effects":[]}}`
with one `{x,y,vx,vy}` object per ball in list order (centre and velocity), the
`{x,y,width,height}` objects of the two paddles and the two scores; the text does not
depend on the state of the power-up manager, so both arrays are empty whatever it
holds. -/
theorem C4_state_json_format (S : Sys) (g : Game) (pm : PowerUpManager) :
    Game.getStateJson S g = specStateJson S g ∧
    Game.getStateJson S { g with powerUpManager := pm } = Game.getStateJson S g := by
  refine ⟨?_, rfl⟩
  simp only [Game.getStateJson, specStateJson]
  rw [ballsJsonLoop_eq S g.balls.length g.balls 0 _ (by simp), paddleJson_eq, paddleJson_eq]
  apply String.ext
  simp [String.data_append]

/-! ### C5 -/

theorem scoringLoop_none (S : Sys) (g : Game) (bs : List Ball)
    (h : bs.find? (fun ball => decide (ball.getPosition.x < 0) ||
      decide (ball.getPosition.x > 800)) = none) :
    Game.scoringLoop S g bs = g := by
  induction bs with
  | nil => rfl
  | cons b rest ih =>
    simp only [List.find?_cons] at h
    split at h
    · exact absurd h (by simp)
    · rename_i hb
      simp only [Bool.or_eq_true, decide_eq_true_eq, not_or, Bool.not_eq_true,
        Bool.or_eq_false_iff, decide_eq_false_iff_not] at hb
      simp only [Game.scoringLoop, hb.1, hb.2, if_false]
      exact ih h

theorem scoringLoop_some (S : Sys) (g : Game) (bs : List Ball) (b : Ball)
    (h : bs.find? (fun ball => decide (ball.getPosition.x < 0) ||
      decide (ball.getPosition.x > 800)) = some b) :
    Game.scoringLoop S g bs =
      if b.getPosition.x < 0 then Game.reset S { g with botScore := wrapInt (g.botScore + 1) }
      else Game.reset S { g with playerScore := wrapInt (g.playerScore + 1) } := by
  induction bs with
  | nil => simp at h
  | cons c rest ih =>
    simp only [List.find?_cons] at h
    split at h
    · rename_i hc
      simp only [Option.some.injEq] at h
      subst h
      simp only [Bool.or_eq_true, decide_eq_true_eq] at hc
      simp only [Game.scoringLoop]
      by_cases h0 : c.getPosition.x < 0
      · simp [h0]
      · have h8 : c.getPosition.x > 800 := hc.resolve_left h0
        simp [h0, h8]
    · rename_i hc
      simp only [Bool.or_eq_true, decide_eq_true_eq, not_or, Bool.not_eq_true,
        Bool.or_eq_false_iff, decide_eq_false_iff_not] at hc
      simp only [Game.scoringLoop, hc.1, hc.2, if_false]
      exact ih h

/-- An `int` below 2147483647 is incremented without leaving the range. -/
theorem wrapInt_succ (x : Int) (h1 : -2147483648 ≤ x) (h2 : x < 2147483647) :
    wrapInt (x + 1) = x + 1 := by
  unfold wrapInt
  omega

/-- C5: scoring and reset. If the first ball of the list that is out of bounds (centre
`x < 0` or `x > 800`) is `b`, the paddles carry the initial positions given by their
constructor, and both scores are `int` values below the largest one, 2147483647, then
the scoring phase of `Game::update` ends with exactly one freshly constructed ball
(centre (400,300), speed multiplier 1, the initial velocity) and both paddles at
(10,250) and (770,250); with `x < 0` the opponent score grows by one and the player
score is unchanged, with `x > 800` the player score grows by one and the opponent
score is unchanged. -/
theorem C5_scoring_reset (S : Sys) (g : Game) (b : Ball)
    (hfirst : g.balls.find? (fun ball => decide (ball.getPosition.x < 0) ||
      decide (ball.getPosition.x > 800)) = some b)
    (hp : g.playerPaddle.initialPosition = ⟨10, 250⟩)
    (hb : g.botPaddle.initialPosition = ⟨770, 250⟩)
    (hps : -2147483648 ≤ g.playerScore ∧ g.playerScore < 2147483647)
    (hbs : -2147483648 ≤ g.botScore ∧ g.botScore < 2147483647) :
    ((g.scoring S).balls = [(Ball.new S g.rng).1] ∧
      (Ball.new S g.rng).1.getPosition = ⟨400, 300⟩ ∧
      (Ball.new S g.rng).1.speedMultiplier = 1 ∧
      (Ball.new S g.rng).1.velocity =
        ⟨S.cos (Ball.angle (S.rand (S.srand 42)).1) * 300,
         S.sin (Ball.angle (S.rand (S.srand 42)).1) * 300⟩ ∧
      (g.scoring S).playerPaddle.shape.position = ⟨10, 250⟩ ∧
      (g.scoring S).botPaddle.shape.position = ⟨770, 250⟩) ∧
    (b.getPosition.x < 0 →
      (g.scoring S).botScore = g.botScore + 1 ∧ (g.scoring S).playerScore = g.playerScore) ∧
    (b.getPosition.x > 800 →
      (g.scoring S).playerScore = g.playerScore + 1 ∧ (g.scoring S).botScore = g.botScore) := by
  have hs := scoringLoop_some S g g.balls b hfirst
  have hcentre : (Ball.new S g.rng).1.getPosition = ⟨400, 300⟩ := by
    simp [Ball.new, Ball.getPosition, Vector2f.add, Vector2f.sub]
  refine ⟨⟨?_, hcentre, rfl, rfl, ?_, ?_⟩, ?_, ?_⟩
  · rw [Game.scoring, hs]; split_ifs <;> simp [Game.reset]
  · rw [Game.scoring, hs]
    split_ifs <;> simp [Game.reset, Paddle.reset, Paddle.setShapePosition, hp]
  · rw [Game.scoring, hs]
    split_ifs <;> simp [Game.reset, Paddle.reset, Paddle.setShapePosition, hb]
  · intro h0
    rw [Game.scoring, hs, if_pos h0]
    simp [Game.reset, wrapInt_succ _ hbs.1 hbs.2]
  · intro h8
    have h0 : ¬ b.getPosition.x < 0 := by linarith
    rw [Game.scoring, hs, if_neg h0]
    simp [Game.reset, wrapInt_succ _ hps.1 hps.2]

/-- Witness of C5: a server-mode game whose only ball has its centre at `x = -20`. -/
theorem C5_scoring_reset_witness :
    ((gameWithBalls [ballAt (-30) 290 (-300) 0 1]).scoring refSys).botScore =
        (gameWithBalls [ballAt (-30) 290 (-300) 0 1]).botScore + 1 ∧
      ((gameWithBalls [ballAt (-30) 290 (-300) 0 1]).scoring refSys).playerScore =
        (gameWithBalls [ballAt (-30) 290 (-300) 0 1]).playerScore :=
  (C5_scoring_reset refSys (gameWithBalls [ballAt (-30) 290 (-300) 0 1])
    (ballAt (-30) 290 (-300) 0 1)
    (by norm_num [gameWithBalls, ballAt, Ball.getPosition, Vector2f.add])
    (by simp [gameWithBalls, Game.new, Paddle.new])
    (by simp [gameWithBalls, Game.new, Paddle.new])
    (by decide) (by decide)).2.1
    (by norm_num [ballAt, Ball.getPosition, Vector2f.add])

/-! ### C6 -/

theorem collideBall_eq (S : Sys) (P Q : Paddle) (ball : Ball) :
    Game.collideBall S P Q ball =
      if ((ball.getBounds S).findIntersection P.getBounds).isSome then
        (if ((ball.getBounds S).findIntersection Q.getBounds).isSome then ball.bounceX.bounceX
         else ball.bounceX)
      else
        (if ((ball.getBounds S).findIntersection Q.getBounds).isSome then ball.bounceX
         else ball) := by
  have hb : ∀ b : Ball, b.bounceX.getBounds S = b.getBounds S := fun _ => rfl
  unfold Game.collideBall
  by_cases hP : ((ball.getBounds S).findIntersection P.getBounds).isSome = true
  · simp only [hP, if_true, hb]
  · simp [hP]

/-- C8: paddle collision. The collision phase of `Game::update` handles every ball of
the list on its own, in place, and changes nothing else. `bounceX` negates the
horizontal velocity and keeps the vertical velocity, the shape and the multiplier.
A ball keeps its shape (position), vertical velocity and multiplier through the
phase; its horizontal velocity is negated once for each paddle whose bounding box
its bounding box intersects: negated when it intersects exactly one paddle, unchanged
when it intersects both and when it intersects none. -/
theorem C8_paddle_collision (S : Sys) (g : Game) (ball : Ball) :
    (g.collisions S).balls = g.balls.map (Game.collideBall S g.playerPaddle g.botPaddle) ∧
    (g.collisions S).balls.length = g.balls.length ∧
    (g.collisions S).playerPaddle = g.playerPaddle ∧ (g.collisions S).botPaddle = g.botPaddle ∧
    (g.collisions S).playerScore = g.playerScore ∧ (g.collisions S).botScore = g.botScore ∧
    ball.bounceX.velocity = ⟨-ball.velocity.x, ball.velocity.y⟩ ∧
    ball.bounceX.shape = ball.shape ∧ ball.bounceX.speedMultiplier = ball.speedMultiplier ∧
    (Game.collideBall S g.playerPaddle g.botPaddle ball).shape = ball.shape ∧
    (Game.collideBall S g.playerPaddle g.botPaddle ball).velocity.y = ball.velocity.y ∧
    (Game.collideBall S g.playerPaddle g.botPaddle ball).speedMultiplier =
      ball.speedMultiplier ∧
    (Game.collideBall S g.playerPaddle g.botPaddle ball).velocity.x =
      (if ((ball.getBounds S).findIntersection g.playerPaddle.getBounds).isSome then
        (if ((ball.getBounds S).findIntersection g.botPaddle.getBounds).isSome then
          ball.velocity.x else -ball.velocity.x)
       else
        (if ((ball.getBounds S).findIntersection g.botPaddle.getBounds).isSome then
          -ball.velocity.x else ball.velocity.x)) := by
  refine ⟨rfl, by simp [Game.collisions], rfl, rfl, rfl, rfl, rfl, rfl, rfl, ?_, ?_, ?_, ?_⟩
  all_goals
    rw [collideBall_eq]
    by_cases hP : ((ball.getBounds S).findIntersection g.playerPaddle.getBounds).isSome = true <;>
    by_cases hQ : ((ball.getBounds S).findIntersection g.botPaddle.getBounds).isSome = true <;>
    simp [hP, hQ, Ball.bounceX]

/-! ### C10 -/

theorem TypeMap.get_set (m : TypeMap) (k j : PowerUpType) (v : ℚ) :
    (m.set k v).get j = if j = k then v else m.get j := by
  cases k <;> cases j <;> simp [TypeMap.get, TypeMap.set]

/-- One pass of the spawn loop for the key `k`. -/
theorem spawnStep_spec (S : Sys) (dt : ℚ) (st : PowerUpManager × Nat) (k : PowerUpType) :
    (PowerUpManager.spawnStep S dt st k).1.spawnIntervals = st.1.spawnIntervals ∧
    (PowerUpManager.spawnStep S dt st k).1.durations = st.1.durations ∧
    (PowerUpManager.spawnStep S dt st k).1.activeEffects = st.1.activeEffects ∧
    (∀ j, (PowerUpManager.spawnStep S dt st k).1.spawnTimers.get j =
      if j = k then
        (if st.1.spawnTimers.get k - dt ≤ 0 then st.1.spawnIntervals.get k
         else st.1.spawnTimers.get k - dt)
      else st.1.spawnTimers.get j) ∧
    ∃ new, (PowerUpManager.spawnStep S dt st k).1.powerUps = st.1.powerUps ++ new ∧
      (∀ j, new.countP (fun p => decide (p.type = j)) =
        if j = k ∧ st.1.spawnTimers.get k - dt ≤ 0 then 1 else 0) ∧
      ∀ p ∈ new, p.shape.position.y = 0 ∧ 0 ≤ p.shape.position.x ∧ p.shape.position.x < 800 := by
  unfold PowerUpManager.spawnStep
  simp only [TypeMap.get_set, if_true]
  by_cases h : st.1.spawnTimers.get k - dt ≤ 0
  · simp only [h, if_true, PowerUpManager.spawnPowerUp, TypeMap.get_set]
    refine ⟨trivial, trivial, trivial, ?_, [PowerUp.new k ⟨((((S.rand st.2).1 % 800 : Nat)) : ℚ), 0⟩], rfl,
      ?_, ?_⟩
    · intro j; by_cases hj : j = k <;> simp [hj]
    · intro j
      by_cases hj : j = k
      · simp [hj, PowerUp.new]
      · have hj2 : ¬ k = j := fun e => hj e.symm
        simp [hj, hj2, PowerUp.new]
    · intro p hp
      simp only [List.mem_singleton] at hp
      subst hp
      refine ⟨rfl, ?_, ?_⟩
      · simp [PowerUp.new]
      · simp only [PowerUp.new]
        have : (S.rand st.2).1 % 800 < 800 := Nat.mod_lt _ (by norm_num)
        exact_mod_cast this
  · simp only [h, if_false]
    refine ⟨trivial, trivial, trivial, ?_, [], by simp, ?_, ?_⟩
    · intro j; by_cases hj : j = k <;> simp [hj, TypeMap.get_set]
    · intro j; simp
    · intro p hp; simp at hp

/-- The spawn loop of `PowerUpManager::update` over the three keys. -/
theorem spawnPhase_spec (S : Sys) (dt : ℚ) (pm : PowerUpManager) (rng : Nat) :
    (PowerUpManager.spawnPhase S dt pm rng).1.spawnIntervals = pm.spawnIntervals ∧
    (PowerUpManager.spawnPhase S dt pm rng).1.durations = pm.durations ∧
    (PowerUpManager.spawnPhase S dt pm rng).1.activeEffects = pm.activeEffects ∧
    (∀ j, (PowerUpManager.spawnPhase S dt pm rng).1.spawnTimers.get j =
      if pm.spawnTimers.get j - dt ≤ 0 then pm.spawnIntervals.get j
      else pm.spawnTimers.get j - dt) ∧
    ∃ new, (PowerUpManager.spawnPhase S dt pm rng).1.powerUps = pm.powerUps ++ new ∧
      (∀ j, new.countP (fun p => decide (p.type = j)) =
        if pm.spawnTimers.get j - dt ≤ 0 then 1 else 0) ∧
      ∀ p ∈ new, p.shape.position.y = 0 ∧ 0 ≤ p.shape.position.x ∧ p.shape.position.x < 800 := by
  obtain ⟨a1, a2, a3, a4, n1, a5, a6, a7⟩ :=
    spawnStep_spec S dt (pm, rng) .ExtendPaddle
  obtain ⟨b1, b2, b3, b4, n2, b5, b6, b7⟩ :=
    spawnStep_spec S dt (PowerUpManager.spawnStep S dt (pm, rng) .ExtendPaddle) .SplitBall
  obtain ⟨c1, c2, c3, c4, n3, c5, c6, c7⟩ :=
    spawnStep_spec S dt (PowerUpManager.spawnStep S dt
      (PowerUpManager.spawnStep S dt (pm, rng) .ExtendPaddle) .SplitBall) .SlowMotion
  have hs : PowerUpManager.spawnPhase S dt pm rng =
      PowerUpManager.spawnStep S dt (PowerUpManager.spawnStep S dt
        (PowerUpManager.spawnStep S dt (pm, rng) .ExtendPaddle) .SplitBall) .SlowMotion := rfl
  rw [hs]
  dsimp only at a1 a2 a3 a4 a5 a6 a7
  refine ⟨by rw [c1, b1, a1], by rw [c2, b2, a2], by rw [c3, b3, a3], ?_, n1 ++ n2 ++ n3, ?_, ?_, ?_⟩
  · intro j
    cases j <;> simp [c4, b4, a4, b1, a1]
  · rw [c5, b5, a5]; simp
  · intro j
    rw [List.countP_append, List.countP_append, a6, b6, c6]
    cases j <;> simp [b4, a4]
  · intro p hp
    simp only [List.mem_append] at hp
    rcases hp with (hp | hp) | hp
    · exact a7 p hp
    · exact b7 p hp
    · exact c7 p hp

theorem applyEffect_config (S : Sys) (pm : PowerUpManager) (t : PowerUpType) (r : Refs) :
    (pm.applyEffect S t r).1.spawnTimers = pm.spawnTimers ∧
    (pm.applyEffect S t r).1.spawnIntervals = pm.spawnIntervals ∧
    (pm.applyEffect S t r).1.durations = pm.durations := by
  cases t <;> simp [PowerUpManager.applyEffect]

theorem collectPowerUps_config (S : Sys) (ps : List PowerUp) (st : PowerUpManager × Refs) :
    (PowerUpManager.collectPowerUps S ps st).2.1.spawnTimers = st.1.spawnTimers ∧
    (PowerUpManager.collectPowerUps S ps st).2.1.spawnIntervals = st.1.spawnIntervals ∧
    (PowerUpManager.collectPowerUps S ps st).2.1.durations = st.1.durations := by
  induction ps generalizing st with
  | nil => simp [PowerUpManager.collectPowerUps]
  | cons p ps ih =>
    simp only [PowerUpManager.collectPowerUps]
    split_ifs
    · obtain ⟨h1, h2, h3⟩ := ih (st.1.applyEffect S p.getType st.2)
      obtain ⟨e1, e2, e3⟩ := applyEffect_config S st.1 p.getType st.2
      exact ⟨h1.trans e1, h2.trans e2, h3.trans e3⟩
    · exact ih st

theorem update_config (S : Sys) (pm : PowerUpManager) (dt : ℚ) (r : Refs) :
    (pm.update S dt r).1.spawnTimers = (PowerUpManager.spawnPhase S dt pm r.rng).1.spawnTimers ∧
    (pm.update S dt r).1.spawnIntervals = pm.spawnIntervals ∧
    (pm.update S dt r).1.durations = pm.durations := by
  obtain ⟨s1, s2, -⟩ := spawnPhase_spec S dt pm r.rng
  simp only [PowerUpManager.update]
  refine ⟨?_, ?_, ?_⟩
  · exact (collectPowerUps_config S _ _).1
  · exact ((collectPowerUps_config S _ _).2.1).trans s1
  · exact ((collectPowerUps_config S _ _).2.2).trans s2

/-- C10: spawn timer. In a manager with the configured intervals (15, 20 and 25
seconds for ExtendPaddle, SplitBall and SlowMotion), for every type `k`, timer value
and `dt`: after `PowerUpManager::update` the timer of `k` is the configured interval
when the timer minus `dt` is at or below zero, and the timer minus `dt` otherwise; the
spawn loop of that update appends power-ups to the list, of which exactly one has
type `k` in the first case and none in the second, each created at `y = 0` with
`0 ≤ x < 800`. -/
theorem C10_spawn_timer (S : Sys) (pm : PowerUpManager) (dt : ℚ) (r : Refs) (k : PowerUpType)
    (hcfg : pm.spawnIntervals = PowerUpManager.new.spawnIntervals) :
    pm.spawnIntervals = ⟨15, 20, 25⟩ ∧
    (pm.update S dt r).1.spawnIntervals = ⟨15, 20, 25⟩ ∧
    (pm.update S dt r).1.spawnTimers.get k =
      (if pm.spawnTimers.get k - dt ≤ 0 then (⟨15, 20, 25⟩ : TypeMap).get k
       else pm.spawnTimers.get k - dt) ∧
    ∃ new, (PowerUpManager.spawnPhase S dt pm r.rng).1.powerUps = pm.powerUps ++ new ∧
      new.countP (fun p => decide (p.type = k)) =
        (if pm.spawnTimers.get k - dt ≤ 0 then 1 else 0) ∧
      ∀ p ∈ new, p.shape.position.y = 0 ∧ 0 ≤ p.shape.position.x ∧ p.shape.position.x < 800 := by
  have hc : pm.spawnIntervals = ⟨15, 20, 25⟩ := hcfg
  obtain ⟨-, -, -, s4, new, s5, s6, s7⟩ := spawnPhase_spec S dt pm r.rng
  obtain ⟨u1, u2, -⟩ := update_config S pm dt r
  refine ⟨hc, u2.trans hc, ?_, new, s5, s6 k, s7⟩
  rw [u1, s4 k, hc]

/-- Witness of C10: the manager as constructed, updated with `dt = 16`; the timer of
ExtendPaddle (15) expires and is set to 15 again, not to 14. -/
theorem C10_spawn_timer_witness :
    (PowerUpManager.new.update refSys 16 ⟨Paddle.new true, [], 0⟩).1.spawnTimers.get
        .ExtendPaddle =
      (if PowerUpManager.new.spawnTimers.get .ExtendPaddle - 16 ≤ 0
       then (⟨15, 20, 25⟩ : TypeMap).get .ExtendPaddle
       else PowerUpManager.new.spawnTimers.get .ExtendPaddle - 16) :=
  (C10_spawn_timer refSys PowerUpManager.new 16 ⟨Paddle.new true, [], 0⟩ .ExtendPaddle rfl).2.2.1

/-! ### C9 -/

theorem update_eq_phases (S : Sys) (keys : Keys) (g : Game) (dt : ℚ) :
    g.update S keys dt = ((g.prePowerUps S keys dt).updatePowerUps S dt).scoring S := rfl

theorem movePlayer_balls (g : Game) (keys : Keys) (dt : ℚ) :
    (g.movePlayer keys dt).balls = g.balls := by
  simp only [Game.movePlayer]; split_ifs <;> rfl

theorem moveBot_balls (g : Game) (dt : ℚ) : (g.moveBot dt).balls = g.balls := by
  simp only [Game.moveBot]
  split
  · simp only [Game.internalBot]; split_ifs <;> rfl
  · split_ifs <;> rfl

theorem updateExtend_balls (g : Game) (dt : ℚ) : (g.updateExtend dt).balls = g.balls := by
  simp only [Game.updateExtend]; split_ifs <;> rfl

theorem Ball.update_speedMultiplier (b : Ball) (dt : ℚ) :
    (b.update dt).speedMultiplier = b.speedMultiplier := by
  simp only [Ball.update, Ball.setShapePosition, Ball.bounceY]
  split_ifs <;> rfl

theorem collideBall_speedMultiplier (S : Sys) (P Q : Paddle) (b : Ball) :
    (Game.collideBall S P Q b).speedMultiplier = b.speedMultiplier := by
  simp only [Game.collideBall, Ball.bounceX]
  split_ifs <;> rfl

/-- Phases 1 to 4 of `Game::update` keep the number of balls and their multipliers. -/
theorem prePowerUps_multipliers (S : Sys) (keys : Keys) (g : Game) (dt : ℚ) :
    (g.prePowerUps S keys dt).balls.map (fun b => b.speedMultiplier) =
      g.balls.map (fun b => b.speedMultiplier) := by
  simp only [Game.prePowerUps, updateExtend_balls, Game.collisions, Game.updateBalls,
    moveBot_balls, movePlayer_balls, List.map_map]
  apply List.map_congr_left
  intro b _
  simp [collideBall_speedMultiplier, Ball.update_speedMultiplier]

theorem prePowerUps_manager (S : Sys) (keys : Keys) (g : Game) (dt : ℚ) :
    (g.prePowerUps S keys dt).powerUpManager = g.powerUpManager := by
  have h1 : (g.movePlayer keys dt).powerUpManager = g.powerUpManager := by
    simp only [Game.movePlayer]; split_ifs <;> rfl
  have h2 : ∀ g : Game, (g.moveBot dt).powerUpManager = g.powerUpManager := by
    intro g
    simp only [Game.moveBot]
    split
    · simp only [Game.internalBot]; split_ifs <;> rfl
    · split_ifs <;> rfl
  have h5 : ∀ g : Game, (g.updateExtend dt).powerUpManager = g.powerUpManager := by
    intro g; simp only [Game.updateExtend]; split_ifs <;> rfl
  simp only [Game.prePowerUps, h5, Game.collisions, Game.updateBalls, h2, h1]

/-- C11: extend idempotence. On a paddle whose shape has the height of its original
size (as every constructed paddle has): with `extended = true`, `extend d` changes
nothing; with `extended = false` it sets the flag, sets `extendTimeLeft = d` and the
width to twice the original width, and leaves the height, the position and the
remaining fields unchanged. A second `extend` after a first equals the first, for
every paddle. -/
theorem C11_extend_idempotent (p : Paddle) (d d1 d2 : ℚ)
    (hsize : p.shape.size.y = p.originalSize.y) :
    (p.extended = true → p.extend d = p) ∧
    (p.extended = false →
      (p.extend d).extended = true ∧ (p.extend d).extendTimeLeft = d ∧
      (p.extend d).shape.size.x = p.originalSize.x * 2 ∧
      (p.extend d).shape.size.y = p.shape.size.y ∧
      (p.extend d).shape.position = p.shape.position ∧
      (p.extend d).originalSize = p.originalSize ∧ (p.extend d).speed = p.speed ∧
      (p.extend d).initialPosition = p.initialPosition) ∧
    (p.extend d1).extend d2 = p.extend d1 := by
  refine ⟨?_, ?_, ?_⟩
  · intro h; simp [Paddle.extend, h]
  · intro h; simp [Paddle.extend, h, Paddle.setShapeSize, hsize]
  · cases h : p.extended <;> simp [Paddle.extend, h, Paddle.setShapeSize]

/-- Witness of C11: the player paddle as constructed, extended for 10 seconds and then
again for 3 seconds. -/
theorem C11_extend_idempotent_witness :
    ((Paddle.new true).extend 10).extend 3 = (Paddle.new true).extend 10 :=
  (C11_extend_idempotent (Paddle.new true) 5 10 3 rfl).2.2

/-! ### C12 -/

/-- Phases 1 to 4 of `Game::update` leave the scores, the mode and the generator
alone. -/
theorem prePowerUps_frame (S : Sys) (keys : Keys) (g : Game) (dt : ℚ) :
    (g.prePowerUps S keys dt).playerScore = g.playerScore ∧
    (g.prePowerUps S keys dt).botScore = g.botScore ∧
    (g.prePowerUps S keys dt).serverMode = g.serverMode ∧
    (g.prePowerUps S keys dt).rng = g.rng := by
  have h1 : (g.movePlayer keys dt).playerScore = g.playerScore ∧
      (g.movePlayer keys dt).botScore = g.botScore ∧
      (g.movePlayer keys dt).serverMode = g.serverMode ∧
      (g.movePlayer keys dt).rng = g.rng := by
    simp only [Game.movePlayer]; split_ifs <;> exact ⟨rfl, rfl, rfl, rfl⟩
  have h2 : ∀ g : Game, (g.moveBot dt).playerScore = g.playerScore ∧
      (g.moveBot dt).botScore = g.botScore ∧ (g.moveBot dt).serverMode = g.serverMode ∧
      (g.moveBot dt).rng = g.rng := by
    intro g
    simp only [Game.moveBot]
    split
    · simp only [Game.internalBot]; split_ifs <;> exact ⟨rfl, rfl, rfl, rfl⟩
    · split_ifs <;> exact ⟨rfl, rfl, rfl, rfl⟩
  have h5 : ∀ g : Game, (g.updateExtend dt).playerScore = g.playerScore ∧
      (g.updateExtend dt).botScore = g.botScore ∧
      (g.updateExtend dt).serverMode = g.serverMode ∧ (g.updateExtend dt).rng = g.rng := by
    intro g; simp only [Game.updateExtend]; split_ifs <;> exact ⟨rfl, rfl, rfl, rfl⟩
  obtain ⟨a1, a2, a3, a4⟩ := h1
  obtain ⟨b1, b2, b3, b4⟩ := h2 (g.movePlayer keys dt)
  obtain ⟨c1, c2, c3, c4⟩ := h5 ((((g.movePlayer keys dt).moveBot dt).updateBalls dt).collisions S)
  simp only [Game.prePowerUps]
  refine ⟨c1.trans (b1.trans a1), c2.trans (b2.trans a2), c3.trans (b3.trans a3),
    c4.trans (b4.trans a4)⟩

/-- Scores entering the scoring phase are the scores at the start of the tick. -/
theorem beforeScoring_scores (S : Sys) (keys : Keys) (g : Game) (dt : ℚ) :
    ((g.prePowerUps S keys dt).updatePowerUps S dt).playerScore = g.playerScore ∧
    ((g.prePowerUps S keys dt).updatePowerUps S dt).botScore = g.botScore :=
  ⟨(prePowerUps_frame S keys g dt).1, (prePowerUps_frame S keys g dt).2.1⟩

theorem reset_scores (S : Sys) (g : Game) :
    (Game.reset S g).playerScore = g.playerScore ∧ (Game.reset S g).botScore = g.botScore :=
  ⟨rfl, rfl⟩

/-- C12: at most one scoring event per tick. With both scores `int` values below the
largest one, 2147483647, one call of `Game::update` leaves both scores unchanged, or
adds one to the player score only, or adds one to the opponent score only; so the sum
grows by 0 or 1 and neither score decreases. Which of the three happens is decided by
the first ball, in list order, that is out of bounds when the scoring phase runs:
none, no change; centre `x < 0`, the opponent scores; otherwise the player scores. In
particular a first ball beyond `x > 800` followed by any other balls gives the point
to the player alone. -/
theorem C12_one_score_per_tick (S : Sys) (keys : Keys) (g : Game) (dt : ℚ) (h : Game)
    (b0 : Ball) (rest : List Ball)
    (hps : -2147483648 ≤ g.playerScore ∧ g.playerScore < 2147483647)
    (hbs : -2147483648 ≤ g.botScore ∧ g.botScore < 2147483647) :
    (((g.update S keys dt).playerScore = g.playerScore ∧
        (g.update S keys dt).botScore = g.botScore) ∨
      ((g.update S keys dt).playerScore = g.playerScore + 1 ∧
        (g.update S keys dt).botScore = g.botScore) ∨
      ((g.update S keys dt).playerScore = g.playerScore ∧
        (g.update S keys dt).botScore = g.botScore + 1)) ∧
    g.playerScore ≤ (g.update S keys dt).playerScore ∧
    g.botScore ≤ (g.update S keys dt).botScore ∧
    ((g.update S keys dt).playerScore, (g.update S keys dt).botScore) =
      (match ((g.prePowerUps S keys dt).updatePowerUps S dt).balls.find?
          (fun ball => decide (ball.getPosition.x < 0) || decide (ball.getPosition.x > 800)) with
       | none => (g.playerScore, g.botScore)
       | some b =>
         if b.getPosition.x < 0 then (g.playerScore, g.botScore + 1)
         else (g.playerScore + 1, g.botScore)) ∧
    (h.balls = b0 :: rest → b0.getPosition.x > 800 →
      -2147483648 ≤ h.playerScore → h.playerScore < 2147483647 →
      (h.scoring S).playerScore = h.playerScore + 1 ∧ (h.scoring S).botScore = h.botScore) := by
  obtain ⟨hp, hb⟩ := beforeScoring_scores S keys g dt
  have key : ((g.update S keys dt).playerScore, (g.update S keys dt).botScore) =
      (match ((g.prePowerUps S keys dt).updatePowerUps S dt).balls.find?
          (fun ball => decide (ball.getPosition.x < 0) || decide (ball.getPosition.x > 800)) with
       | none => (g.playerScore, g.botScore)
       | some b =>
         if b.getPosition.x < 0 then (g.playerScore, g.botScore + 1)
         else (g.playerScore + 1, g.botScore)) := by
    rw [update_eq_phases, Game.scoring]
    cases hf : ((g.prePowerUps S keys dt).updatePowerUps S dt).balls.find?
        (fun ball => decide (ball.getPosition.x < 0) || decide (ball.getPosition.x > 800)) with
    | none => rw [scoringLoop_none S _ _ hf, hp, hb]
    | some b =>
      rw [scoringLoop_some S _ _ b hf]
      by_cases hx : b.getPosition.x < 0 <;>
        simp [hx, Game.reset, hp, hb, wrapInt_succ _ hps.1 hps.2, wrapInt_succ _ hbs.1 hbs.2]
  have hcases : ∀ x : Int × Int, x = (match
        ((g.prePowerUps S keys dt).updatePowerUps S dt).balls.find?
          (fun ball => decide (ball.getPosition.x < 0) || decide (ball.getPosition.x > 800)) with
       | none => (g.playerScore, g.botScore)
       | some b =>
         if b.getPosition.x < 0 then (g.playerScore, g.botScore + 1)
         else (g.playerScore + 1, g.botScore)) →
      x = (g.playerScore, g.botScore) ∨ x = (g.playerScore + 1, g.botScore) ∨
        x = (g.playerScore, g.botScore + 1) := by
    intro x hx
    split at hx
    · exact Or.inl hx
    · split_ifs at hx
      · exact Or.inr (Or.inr hx)
      · exact Or.inr (Or.inl hx)
  have h3 := hcases _ key
  simp only [Prod.mk.injEq] at h3
  refine ⟨h3, ?_, ?_, key, ?_⟩
  · rcases h3 with ⟨a, -⟩ | ⟨a, -⟩ | ⟨a, -⟩ <;> omega
  · rcases h3 with ⟨-, a⟩ | ⟨-, a⟩ | ⟨-, a⟩ <;> omega
  · intro hbl hx hlo hhi
    have hf : h.balls.find? (fun ball => decide (ball.getPosition.x < 0) ||
        decide (ball.getPosition.x > 800)) = some b0 := by
      rw [hbl]; simp [List.find?_cons, hx]
    have h0 : ¬ b0.getPosition.x < 0 := by linarith
    rw [Game.scoring, scoringLoop_some S h h.balls b0 hf, if_neg h0]
    exact ⟨wrapInt_succ _ hlo hhi, rfl⟩

/-- Witness of C12: a server-mode game whose first ball is beyond the right bound and
whose second ball is beyond the left bound; only the player scores. -/
theorem C12_one_score_per_tick_witness :
    ((gameWithBalls [ballAt 800 290 300 0 1, ballAt (-30) 290 (-300) 0 1]).scoring
        refSys).playerScore =
      (gameWithBalls [ballAt 800 290 300 0 1, ballAt (-30) 290 (-300) 0 1]).playerScore + 1 ∧
    ((gameWithBalls [ballAt 800 290 300 0 1, ballAt (-30) 290 (-300) 0 1]).scoring
        refSys).botScore =
      (gameWithBalls [ballAt 800 290 300 0 1, ballAt (-30) 290 (-300) 0 1]).botScore :=
  (C12_one_score_per_tick refSys Keys.none (Game.new refSys true 0) fixedDt
    (gameWithBalls [ballAt 800 290 300 0 1, ballAt (-30) 290 (-300) 0 1])
    (ballAt 800 290 300 0 1) [ballAt (-30) 290 (-300) 0 1]
    (by decide) (by decide)).2.2.2.2 rfl (by decide!) (by decide) (by decide)

/-! ### Lemmas on what a tick does to the paddles and to the ball list -/

theorem revertEffect_playerPaddle (t : PowerUpType) (r : Refs) :
    (PowerUpManager.revertEffect t r).playerPaddle = r.playerPaddle := by
  cases t <;> rfl

theorem revertEffect_balls_length (t : PowerUpType) (r : Refs) :
    (PowerUpManager.revertEffect t r).balls.length = r.balls.length := by
  cases t <;> simp [PowerUpManager.revertEffect]

/-- The effect loop does not touch the paddle and keeps the number of balls. -/
theorem updateEffects_frame (dt : ℚ) (es : List ActiveEffect) (r : Refs) :
    (PowerUpManager.updateEffects dt es r).2.playerPaddle = r.playerPaddle ∧
    (PowerUpManager.updateEffects dt es r).2.balls.length = r.balls.length := by
  induction es generalizing r with
  | nil => exact ⟨rfl, rfl⟩
  | cons e es ih =>
    simp only [PowerUpManager.updateEffects]
    split_ifs
    · obtain ⟨h1, h2⟩ := ih (PowerUpManager.revertEffect e.type r)
      exact ⟨h1.trans (revertEffect_playerPaddle _ r), h2.trans (revertEffect_balls_length _ r)⟩
    · exact ih r

/-- An effect changes the paddle only by `extend` with the configured duration, and
never removes a ball. -/
theorem applyEffect_frame (S : Sys) (pm : PowerUpManager) (t : PowerUpType) (r : Refs) :
    ((pm.applyEffect S t r).2.playerPaddle = r.playerPaddle ∨
      (pm.applyEffect S t r).2.playerPaddle =
        r.playerPaddle.extend (pm.durations.get .ExtendPaddle)) ∧
    r.balls.length ≤ (pm.applyEffect S t r).2.balls.length := by
  cases t <;> simp [PowerUpManager.applyEffect]

/-- A property of the paddle that `extend` with the configured duration preserves is
preserved by the collection loop, which never removes a ball. -/
theorem collectPowerUps_frame (S : Sys) (Q : Paddle → Prop) (ps : List PowerUp)
    (st : PowerUpManager × Refs)
    (hQ : ∀ p, Q p → Q (p.extend (st.1.durations.get .ExtendPaddle)))
    (h : Q st.2.playerPaddle) :
    Q (PowerUpManager.collectPowerUps S ps st).2.2.playerPaddle ∧
    st.2.balls.length ≤ (PowerUpManager.collectPowerUps S ps st).2.2.balls.length := by
  induction ps generalizing st with
  | nil => exact ⟨h, le_refl _⟩
  | cons p ps ih =>
    simp only [PowerUpManager.collectPowerUps]
    split_ifs
    · obtain ⟨a1, a2⟩ := applyEffect_frame S st.1 p.getType st.2
      have hd : (st.1.applyEffect S p.getType st.2).1.durations = st.1.durations :=
        (applyEffect_config S st.1 p.getType st.2).2.2
      have hq : Q (st.1.applyEffect S p.getType st.2).2.playerPaddle := by
        rcases a1 with a1 | a1
        · rw [a1]; exact h
        · rw [a1]; exact hQ _ h
      obtain ⟨b1, b2⟩ := ih (st.1.applyEffect S p.getType st.2) (by rw [hd]; exact hQ) hq
      exact ⟨b1, le_trans a2 b2⟩
    · exact ih st hQ h

/-- The power-up phase preserves a property of the player paddle that `extend` with
the configured duration preserves, and never removes a ball. -/
theorem updatePowerUps_frame (S : Sys) (Q : Paddle → Prop) (g : Game) (dt : ℚ)
    (hQ : ∀ p, Q p → Q (p.extend (g.powerUpManager.durations.get .ExtendPaddle)))
    (h : Q g.playerPaddle) :
    Q (g.updatePowerUps S dt).playerPaddle ∧
    g.balls.length ≤ (g.updatePowerUps S dt).balls.length ∧
    (g.updatePowerUps S dt).botPaddle = g.botPaddle ∧
    (g.updatePowerUps S dt).powerUpManager.durations = g.powerUpManager.durations := by
  have hd := (spawnPhase_spec S dt g.powerUpManager g.rng).2.1
  refine ⟨?_, ?_, rfl, (update_config S g.powerUpManager dt ⟨g.playerPaddle, g.balls, g.rng⟩).2.2⟩
  · simp only [Game.updatePowerUps, PowerUpManager.update]
    rw [(updateEffects_frame dt _ _).1]
    exact (collectPowerUps_frame S Q _ _ (by rw [hd]; exact hQ) h).1
  · simp only [Game.updatePowerUps, PowerUpManager.update]
    rw [(updateEffects_frame dt _ _).2]
    exact (collectPowerUps_frame S (fun _ => True)
      (PowerUpManager.movePowerUps S dt (PowerUpManager.spawnPhase S dt g.powerUpManager
        g.rng).1.powerUps)
      (_, ⟨g.playerPaddle, g.balls, (PowerUpManager.spawnPhase S dt g.powerUpManager g.rng).2⟩)
      (fun _ _ => trivial) trivial).2

/-- The scoring phase either changes nothing or adds one to a score and resets. -/
theorem scoring_cases (S : Sys) (g : Game) :
    g.scoring S = g ∨
    g.scoring S = Game.reset S { g with botScore := wrapInt (g.botScore + 1) } ∨
    g.scoring S = Game.reset S { g with playerScore := wrapInt (g.playerScore + 1) } := by
  cases hf : g.balls.find? (fun ball => decide (ball.getPosition.x < 0) ||
      decide (ball.getPosition.x > 800)) with
  | none => exact Or.inl (scoringLoop_none S g g.balls hf)
  | some b =>
    right
    rw [Game.scoring, scoringLoop_some S g g.balls b hf]
    split_ifs
    · exact Or.inl rfl
    · exact Or.inr rfl

theorem movePlayer_frame (g : Game) (keys : Keys) (dt : ℚ) :
    (g.movePlayer keys dt).botPaddle = g.botPaddle ∧
    (g.movePlayer keys dt).serverMode = g.serverMode ∧
    (g.movePlayer keys dt).botAction = g.botAction ∧
    (g.movePlayer keys dt).balls = g.balls := by
  simp only [Game.movePlayer]; split_ifs <;> exact ⟨rfl, rfl, rfl, rfl⟩

theorem moveBot_playerPaddle (g : Game) (dt : ℚ) :
    (g.moveBot dt).playerPaddle = g.playerPaddle := by
  simp only [Game.moveBot]
  split
  · simp only [Game.internalBot]; split_ifs <;> rfl
  · split_ifs <;> rfl

theorem updateExtend_botPaddle (g : Game) (dt : ℚ) :
    (g.updateExtend dt).botPaddle = g.botPaddle := by
  simp only [Game.updateExtend]; split_ifs <;> rfl

/-- The opponent paddle after phases 1 to 4 is the one left by the opponent move. -/
theorem prePowerUps_botPaddle (S : Sys) (keys : Keys) (g : Game) (dt : ℚ) :
    (g.prePowerUps S keys dt).botPaddle = ((g.movePlayer keys dt).moveBot dt).botPaddle := by
  simp only [Game.prePowerUps, updateExtend_botPaddle, Game.collisions, Game.updateBalls]

/-- A property of the player paddle preserved by `moveUp`, `moveDown`, the extension
timer, `extend` with the configured duration and `reset` is preserved by a tick. -/
theorem update_playerPaddle_inv (S : Sys) (keys : Keys) (g : Game) (dt : ℚ) (Q : Paddle → Prop)
    (hUp : ∀ p, Q p → Q (p.moveUp dt)) (hDown : ∀ p, Q p → Q (p.moveDown dt))
    (hTimer : ∀ h : Game, Q h.playerPaddle → Q (h.updateExtend dt).playerPaddle)
    (hExtend : ∀ p, Q p → Q (p.extend (g.powerUpManager.durations.get .ExtendPaddle)))
    (hReset : ∀ p, Q p → Q p.reset)
    (h : Q g.playerPaddle) : Q (g.update S keys dt).playerPaddle := by
  have h1 : Q (g.movePlayer keys dt).playerPaddle := by
    simp only [Game.movePlayer]
    split_ifs
    all_goals first | exact hDown _ (hUp _ h) | exact hUp _ h | exact hDown _ h | exact h
  have h4 : Q (g.prePowerUps S keys dt).playerPaddle := by
    simp only [Game.prePowerUps]
    apply hTimer
    show Q ((g.movePlayer keys dt).moveBot dt).playerPaddle
    rw [moveBot_playerPaddle]
    exact h1
  have h5 : Q ((g.prePowerUps S keys dt).updatePowerUps S dt).playerPaddle :=
    (updatePowerUps_frame S Q _ dt (by rw [prePowerUps_manager]; exact hExtend) h4).1
  rw [update_eq_phases]
  rcases scoring_cases S ((g.prePowerUps S keys dt).updatePowerUps S dt) with e | e | e
  · rw [e]; exact h5
  · rw [e]; exact hReset _ h5
  · rw [e]; exact hReset _ h5

/-- A property of the opponent paddle preserved by the opponent move and by `reset`
is preserved by a tick. -/
theorem update_botPaddle_inv (S : Sys) (keys : Keys) (g : Game) (dt : ℚ) (Q : Paddle → Prop)
    (hMove : ∀ h : Game, Q h.botPaddle → Q (h.moveBot dt).botPaddle)
    (hReset : ∀ p, Q p → Q p.reset)
    (h : Q g.botPaddle) : Q (g.update S keys dt).botPaddle := by
  have h4 : Q (g.prePowerUps S keys dt).botPaddle := by
    rw [prePowerUps_botPaddle]
    apply hMove
    rw [(movePlayer_frame g keys dt).1]
    exact h
  rw [update_eq_phases]
  rcases scoring_cases S ((g.prePowerUps S keys dt).updatePowerUps S dt) with e | e | e
  · rw [e]; exact h4
  · rw [e]; exact hReset _ h4
  · rw [e]; exact hReset _ h4

/-- The configured durations survive a tick. -/
theorem update_durations (S : Sys) (keys : Keys) (g : Game) (dt : ℚ) :
    (g.update S keys dt).powerUpManager.durations = g.powerUpManager.durations := by
  have h5 : ((g.prePowerUps S keys dt).updatePowerUps S dt).powerUpManager.durations =
      g.powerUpManager.durations := by
    rw [(updatePowerUps_frame S (fun _ => True) _ dt (fun _ _ => trivial) trivial).2.2.2,
      prePowerUps_manager]
  rw [update_eq_phases]
  rcases scoring_cases S ((g.prePowerUps S keys dt).updatePowerUps S dt) with e | e | e <;>
    rw [e] <;> exact h5

/-! ### C13 -/

/-- In every reachable state the manager holds the configured durations, and an
extended player paddle has time left. -/
theorem reachable_extension (S : Sys) (sm : Bool) (D : ℚ → Prop) (g : Game)
    (hr : Reachable S sm D g) :
    g.powerUpManager.durations = ⟨10, 0, 8⟩ ∧
    (g.playerPaddle.extended = true → 0 < g.playerPaddle.extendTimeLeft) := by
  induction hr with
  | init rng => exact ⟨rfl, fun h => by simp [Game.new, Paddle.new] at h⟩
  | setBotAction g a _ ih => exact ih
  | update g keys dt _ _ ih =>
    obtain ⟨hd, hq⟩ := ih
    refine ⟨(update_durations S keys g dt).trans hd, ?_⟩
    apply update_playerPaddle_inv S keys g dt
      (fun p => p.extended = true → 0 < p.extendTimeLeft)
    · intro p hp
      simp only [Paddle.moveUp, Paddle.setShapePosition]
      split_ifs <;> exact hp
    · intro p hp
      simp only [Paddle.moveDown, Paddle.setShapePosition]
      split_ifs <;> exact hp
    · intro h _
      simp only [Game.updateExtend, Paddle.setShapeSize]
      split_ifs with h1 h2
      · intro hc; simp at hc
      · intro _; exact not_le.mp h2
      · intro hc; exact absurd hc h1
    · intro p hp
      rw [hd]
      simp only [Paddle.extend, Paddle.setShapeSize, TypeMap.get]
      split_ifs with h1
      · intro _; norm_num
      · exact hp
    · intro p hp; exact hp
    · exact hq

/-- C13: paddle extension invariant. In every state reachable from the constructed
game by calls of `Game::update` with `dt > 0` (and of `setBotAction`), the player
paddle satisfies `extended = true → extendTimeLeft > 0`, and the duration with which
an extension starts is the configured 10 seconds. -/
theorem C13_extension_invariant (S : Sys) (sm : Bool) (g : Game)
    (hr : Reachable S sm (fun dt => 0 < dt) g) :
    (g.playerPaddle.extended = true → 0 < g.playerPaddle.extendTimeLeft) ∧
    g.powerUpManager.durations.get .ExtendPaddle = 10 := by
  obtain ⟨hd, hq⟩ := reachable_extension S sm _ g hr
  exact ⟨hq, by rw [hd]; rfl⟩

/-- Witness of C13: the server-mode game of the reference environment after one tick
of 1/60 s. -/
theorem C13_extension_invariant_witness :
    (((Game.new refSys true 0).update refSys Keys.none fixedDt).playerPaddle.extended = true →
      0 < ((Game.new refSys true 0).update refSys Keys.none fixedDt).playerPaddle.extendTimeLeft) ∧
    ((Game.new refSys true 0).update refSys Keys.none
      fixedDt).powerUpManager.durations.get .ExtendPaddle = 10 :=
  C13_extension_invariant refSys true _
    (Reachable.update _ Keys.none fixedDt (by norm_num [fixedDt]) (Reachable.init 0))

/-! ### C15 -/

/-- A tick that starts with a ball ends with a ball: balls are moved in place, the
power-up phase never removes one, and a reset leaves exactly one. -/
theorem update_balls_nonempty (S : Sys) (keys : Keys) (g : Game) (dt : ℚ)
    (h : 0 < g.balls.length) : 0 < (g.update S keys dt).balls.length := by
  have h4 : (g.prePowerUps S keys dt).balls.length = g.balls.length := by
    have := congrArg List.length (prePowerUps_multipliers S keys g dt)
    simpa using this
  have h5 : 0 < ((g.prePowerUps S keys dt).updatePowerUps S dt).balls.length := by
    have := (updatePowerUps_frame S (fun _ => True) (g.prePowerUps S keys dt) dt
      (fun _ _ => trivial) trivial).2.1
    omega
  rw [update_eq_phases]
  rcases scoring_cases S ((g.prePowerUps S keys dt).updatePowerUps S dt) with e | e | e
  · rw [e]; exact h5
  · rw [e]; simp [Game.reset]
  · rw [e]; simp [Game.reset]

/-- C15: non-empty ball list. The constructed game has exactly one ball; the SplitBall
effect appends one ball and a reset leaves exactly one; in every state reachable by
calls of `Game::update` (with any time step) and of `setBotAction` the list holds at
least one ball, so in local mode the opponent move is the built-in logic reading
ball 0. -/
theorem C15_balls_nonempty (S : Sys) (sm : Bool) (g : Game) (dt : ℚ) (pm : PowerUpManager)
    (r : Refs) (hr : Reachable S sm (fun _ => True) g) :
    (Game.new S sm 0).balls.length = 1 ∧
    (pm.applyEffect S .SplitBall r).2.balls.length = r.balls.length + 1 ∧
    (Game.reset S g).balls.length = 1 ∧
    0 < g.balls.length ∧
    (g.serverMode = false →
      ∃ ball0 rest, g.balls = ball0 :: rest ∧ g.moveBot dt = g.internalBot ball0 dt) := by
  have hne : 0 < g.balls.length := by
    induction hr with
    | init rng => simp [Game.new]
    | setBotAction g a _ ih => exact ih
    | update g keys dt _ _ ih => exact update_balls_nonempty S keys g dt ih
  refine ⟨by simp [Game.new], by simp [PowerUpManager.applyEffect], by simp [Game.reset],
    hne, ?_⟩
  intro hsm
  cases hb : g.balls with
  | nil => rw [hb] at hne; simp at hne
  | cons ball0 rest =>
    refine ⟨ball0, rest, rfl, ?_⟩
    simp only [Game.moveBot, hsm, hb]

/-- Witness of C15: the local-mode game of the reference environment after one tick of
1/60 s. -/
theorem C15_balls_nonempty_witness :
    0 < ((Game.new refSys false 0).update refSys Keys.none fixedDt).balls.length :=
  (C15_balls_nonempty refSys false _ fixedDt PowerUpManager.new ⟨Paddle.new true, [], 0⟩
    (Reachable.update _ Keys.none fixedDt trivial (Reachable.init 0))).2.2.2.1

/-! ### C17 -/

theorem moveUp_spec (p : Paddle) (dt : ℚ) :
    (p.moveUp dt).shape.position.y = max 0 (p.shape.position.y - p.speed * dt) ∧
    (p.moveUp dt).shape.position.x = p.shape.position.x ∧
    (p.moveUp dt).shape.size = p.shape.size ∧
    (p.moveUp dt).speed = p.speed ∧ (p.moveUp dt).originalSize = p.originalSize ∧
    (p.moveUp dt).initialPosition = p.initialPosition ∧
    (p.moveUp dt).extended = p.extended ∧ (p.moveUp dt).extendTimeLeft = p.extendTimeLeft := by
  simp only [Paddle.moveUp, Paddle.setShapePosition, Vector2f.add]
  split_ifs with h
  · refine ⟨?_, by simp, rfl, rfl, rfl, rfl, rfl, rfl⟩
    have : p.shape.position.y - p.speed * dt ≤ 0 := by linarith
    simp [max_eq_left this]
  · refine ⟨?_, by simp, rfl, rfl, rfl, rfl, rfl, rfl⟩
    have : 0 ≤ p.shape.position.y - p.speed * dt := by linarith
    simp only [max_eq_right this]
    ring

theorem moveDown_spec (p : Paddle) (dt : ℚ) :
    (p.moveDown dt).shape.position.y =
      min (600 - p.shape.size.y) (p.shape.position.y + p.speed * dt) ∧
    (p.moveDown dt).shape.position.x = p.shape.position.x ∧
    (p.moveDown dt).shape.size = p.shape.size ∧
    (p.moveDown dt).speed = p.speed ∧ (p.moveDown dt).originalSize = p.originalSize ∧
    (p.moveDown dt).initialPosition = p.initialPosition ∧
    (p.moveDown dt).extended = p.extended ∧
    (p.moveDown dt).extendTimeLeft = p.extendTimeLeft := by
  simp only [Paddle.moveDown, Paddle.setShapePosition, Vector2f.add]
  split_ifs with h
  · refine ⟨?_, by simp, rfl, rfl, rfl, rfl, rfl, rfl⟩
    have : 600 - p.shape.size.y ≤ p.shape.position.y + p.speed * dt := by linarith
    simp [min_eq_left this]
  · refine ⟨?_, by simp, rfl, rfl, rfl, rfl, rfl, rfl⟩
    have : p.shape.position.y + p.speed * dt ≤ 600 - p.shape.size.y := by linarith
    simp [min_eq_right this]

/-- C17, the code at the failing input, in binary32 arithmetic. The opponent paddle of
a new server-mode game is at the top, `y = 0`, after 25 ticks with action 1, and at
`y = 500 + 2⁻¹⁵` after 50 further ticks with action -1: its lower edge
`y + height = 600 + 2⁻¹⁵` is below the playfield, yet the sum the clamp of `moveDown`
tests is rounded to 600 and is not above 600. The same calls in exact arithmetic end
at `y = 500`. -/
theorem C17_paddle_leaves_playfield :
    (botPaddleAfter 25 0).shape.position.y = 0 ∧
    (botPaddleAfter 25 50).shape.position.y = 500 + 1 / 32768 ∧
    (botPaddleAfter 25 50).shape.size.y = 100 ∧
    (botPaddleAfter 25 50).shape.position.y + (botPaddleAfter 25 50).shape.size.y > 600 ∧
    f32 ((botPaddleAfter 25 50).shape.position.y + (botPaddleAfter 25 50).shape.size.y) = 600 ∧
    ((fun p => Paddle.moveDown p fixedDt)^[50]
      ((fun p => Paddle.moveUp p fixedDt)^[25] (Paddle.new false))).shape.position.y = 500 := by
  decide!

/-! ### C16 -/

/-- In server mode the opponent move of `Game::update` follows the stored action. -/
theorem moveBot_server (g : Game) (dt : ℚ) (hsm : g.serverMode = true) :
    (g.moveBot dt).botPaddle =
      if g.botAction = -1 then g.botPaddle.moveDown dt
      else if g.botAction = 1 then g.botPaddle.moveUp dt
      else g.botPaddle := by
  simp only [Game.moveBot, hsm]
  split_ifs <;> rfl

/-- In a server-mode tick in which the scoring phase finds no ball out of bounds, the
opponent paddle after `Game::update` is the one returned by `moveDown(dt)` for action
-1, by `moveUp(dt)` for action 1, and the paddle before the tick otherwise. -/
theorem update_botPaddle_server (S : Sys) (keys : Keys) (g : Game) (dt : ℚ)
    (hsm : g.serverMode = true)
    (hnoreset : ((g.prePowerUps S keys dt).updatePowerUps S dt).balls.find?
      (fun ball => decide (ball.getPosition.x < 0) || decide (ball.getPosition.x > 800)) = none) :
    (g.update S keys dt).botPaddle =
      (if g.botAction = -1 then g.botPaddle.moveDown dt
       else if g.botAction = 1 then g.botPaddle.moveUp dt
       else g.botPaddle) := by
  obtain ⟨f1, f2, f3, -⟩ := movePlayer_frame g keys dt
  rw [update_eq_phases, Game.scoring, scoringLoop_none S _ _ hnoreset]
  show (g.prePowerUps S keys dt).botPaddle = _
  rw [prePowerUps_botPaddle, moveBot_server _ dt (f2.trans hsm), f1, f3]

/-- C16, the code at the failing input, in binary32 arithmetic. After 25 ticks with
action 1 and 49 ticks with action -1 the opponent paddle of a new server-mode game is
at `y = 490 + 2⁻¹⁵`. The next tick with action -1 calls `moveDown(fixedDt)`, which
adds `speed × dt = 10 + 2⁻²⁰` and leaves the paddle at `y = 500 + 2⁻¹⁵`: the clamp
test rounds `y + height` to 600, which is not above 600, so the paddle is not put back
to `600 - height = 500` and its lower edge stays below the playfield. In exact
arithmetic the same call clamps the paddle to `y = 500`. -/
theorem C16_clamp_skipped :
    (botPaddleAfter 25 49).shape.position.y = 490 + 1 / 32768 ∧
    f32 ((botPaddleAfter 25 49).speed * fixedDt32) = 10 + 1 / 1048576 ∧
    ((botPaddleAfter 25 49).moveDown32 fixedDt32).shape.position.y = 500 + 1 / 32768 ∧
    f32 (500 + 1 / 32768 + (botPaddleAfter 25 49).shape.size.y) = 600 ∧
    ¬ (((botPaddleAfter 25 49).moveDown32 fixedDt32).shape.position.y +
        ((botPaddleAfter 25 49).moveDown32 fixedDt32).shape.size.y ≤ 600) ∧
    ((botPaddleAfter 25 49).moveDown fixedDt32).shape.position.y = 500 := by
  decide!

/-! ### C18 -/

/-- A value returned by `stoi` is a 32-bit `int`. -/
theorem stoi_range (str : List Char) (v : Int) (h : stoi str = .ok v) :
    -2147483648 ≤ v ∧ v ≤ 2147483647 := by
  unfold stoi at h
  dsimp only at h
  by_cases h1 : (List.takeWhile Char.isDigit
      (match List.dropWhile isSpace str with
        | c :: r => if c = Char.ofNat 45 ∨ c = Char.ofNat 43 then r
          else List.dropWhile isSpace str
        | [] => List.dropWhile isSpace str)).isEmpty = true
  · rw [if_pos h1] at h; cases h
  · rw [if_neg h1] at h
    by_cases h2 : (if decide ((List.dropWhile isSpace str).head? = some (Char.ofNat 45)) = true
          then -(digitsValue (List.takeWhile Char.isDigit
            (match List.dropWhile isSpace str with
              | c :: r => if c = Char.ofNat 45 ∨ c = Char.ofNat 43 then r
                else List.dropWhile isSpace str
              | [] => List.dropWhile isSpace str)) : Int)
          else (digitsValue (List.takeWhile Char.isDigit
            (match List.dropWhile isSpace str with
              | c :: r => if c = Char.ofNat 45 ∨ c = Char.ofNat 43 then r
                else List.dropWhile isSpace str
              | [] => List.dropWhile isSpace str)) : Int)) < -2147483648 ∨
        (if decide ((List.dropWhile isSpace str).head? = some (Char.ofNat 45)) = true
          then -(digitsValue (List.takeWhile Char.isDigit
            (match List.dropWhile isSpace str with
              | c :: r => if c = Char.ofNat 45 ∨ c = Char.ofNat 43 then r
                else List.dropWhile isSpace str
              | [] => List.dropWhile isSpace str)) : Int)
          else (digitsValue (List.takeWhile Char.isDigit
            (match List.dropWhile isSpace str with
              | c :: r => if c = Char.ofNat 45 ∨ c = Char.ofNat 43 then r
                else List.dropWhile isSpace str
              | [] => List.dropWhile isSpace str)) : Int)) > 2147483647
    · rw [if_pos h2] at h; cases h
    · rw [if_neg h2] at h
      simp only [Except.ok.injEq] at h
      rw [← h]
      push_neg at h2
      exact h2

/-- The action after a message is the previous one or the value `stoi` read. -/
theorem handleMessage_cases (g : Game) (msg : List Char) :
    g.handleMessage msg = g ∨
    ∃ tok a, tokenText msg (find msg actionKey) = .ok tok ∧ stoi tok = .ok a ∧
      g.handleMessage msg = g.setBotAction a := by
  simp only [Game.handleMessage]
  split_ifs with hpos
  · cases ht : tokenText msg (find msg actionKey) with
    | error e => left; simp [actionToken, ht]
    | ok tok =>
      cases hs : stoi tok with
      | error e => left; simp [actionToken, ht, hs]
      | ok a => right; exact ⟨tok, a, rfl, hs, by simp [actionToken, ht, hs]⟩
  · exact Or.inl rfl

/-- C18, refuted as stated: the server-mode game as constructed has action 1; after an
iteration of `handleClient` that receives `{"action": 7}` the session continues with
opponent action 7. -/
theorem C18_counterexample :
    (Game.new refSys true 0).botAction = 1 ∧
    ((Game.new refSys true 0).handleMessage sevenMsg).botAction = 7 ∧
    ((Game.new refSys true 0).handleClientIter refSys 0
      ⟨100, 13, sevenMsg, 1 / 60, fun _ => Keys.none⟩).continues = true ∧
    ((Game.new refSys true 0).handleClientIter refSys 0
      ⟨100, 13, sevenMsg, 1 / 60, fun _ => Keys.none⟩).game.botAction = 7 := by
  have hf : find sevenMsg actionKey = 1 := by decide
  have ht : actionToken sevenMsg 1 = .ok 7 := by rfl
  have hm : ∀ g : Game, (g.handleMessage sevenMsg).botAction = 7 := by
    intro g
    simp [Game.handleMessage, hf, ht, npos, Game.setBotAction]
  have h := handleClientIter_botAction refSys (Game.new refSys true 0) 0
    ⟨100, 13, sevenMsg, 1 / 60, fun _ => Keys.none⟩ (by decide) (by decide)
  have hmsg : (⟨100, 13, sevenMsg, 1 / 60, fun _ => Keys.none⟩ : IterIO).message = sevenMsg := by
    decide
  rw [hmsg] at h
  exact ⟨rfl, hm _, h.1, h.2.trans (hm _)⟩

/-- C18, amended: after `handleClient` has handled a message, the pending action is
either the previous action or the value `stoi` read from the token text, which is any
32-bit `int`; nothing restricts it to -1, 0, 1. A server-mode `Game::update` with a
stored action other than -1 and 1 makes no opponent move, as with action 0: after the
update the opponent paddle is the one before it when the scoring phase finds no ball
out of bounds, and that paddle put back at its initial position by `reset` when it
finds one. -/
theorem C18_action_after_message (S : Sys) (keys : Keys) (g : Game) (msg : List Char)
    (dt : ℚ) :
    ((g.handleMessage msg).botAction = g.botAction ∨
      ∃ tok a, tokenText msg (find msg actionKey) = .ok tok ∧ stoi tok = .ok a ∧
        (g.handleMessage msg).botAction = a ∧ -2147483648 ≤ a ∧ a ≤ 2147483647) ∧
    (g.serverMode = true → g.botAction ≠ -1 → g.botAction ≠ 1 →
      g.moveBot dt = g ∧
      (g.update S keys dt).botPaddle =
        (match ((g.prePowerUps S keys dt).updatePowerUps S dt).balls.find?
            (fun ball => decide (ball.getPosition.x < 0) ||
              decide (ball.getPosition.x > 800)) with
         | none => g.botPaddle
         | some _ => g.botPaddle.reset)) := by
  constructor
  · rcases handleMessage_cases g msg with h | ⟨tok, a, ht, hs, h⟩
    · left; rw [h]
    · right
      obtain ⟨r1, r2⟩ := stoi_range tok a hs
      exact ⟨tok, a, ht, hs, by rw [h]; rfl, r1, r2⟩
  · intro hsm h1 h2
    refine ⟨by simp [Game.moveBot, hsm, h1, h2], ?_⟩
    obtain ⟨f1, f2, f3, -⟩ := movePlayer_frame g keys dt
    have hpre : ((g.prePowerUps S keys dt).updatePowerUps S dt).botPaddle = g.botPaddle := by
      show (g.prePowerUps S keys dt).botPaddle = _
      rw [prePowerUps_botPaddle, moveBot_server _ dt (f2.trans hsm), f1, f3, if_neg h1,
        if_neg h2]
    rw [update_eq_phases, Game.scoring]
    cases hf : ((g.prePowerUps S keys dt).updatePowerUps S dt).balls.find?
        (fun ball => decide (ball.getPosition.x < 0) || decide (ball.getPosition.x > 800)) with
    | none => rw [scoringLoop_none S _ _ hf]; exact hpre
    | some b =>
      rw [scoringLoop_some S _ _ b hf]
      by_cases hx : b.getPosition.x < 0
      · rw [if_pos hx]; show (Paddle.reset _) = _; rw [← hpre]
      · rw [if_neg hx]; show (Paddle.reset _) = _; rw [← hpre]

/-- Witness of C18 (amended): a server-mode game holding action 7 makes a tick of
1/60 s; no ball is out of bounds and the opponent paddle is where it was. -/
theorem C18_action_after_message_witness :
    (((Game.new refSys true 0).setBotAction 7).update refSys Keys.none fixedDt).botPaddle =
      (Game.new refSys true 0).botPaddle :=
  ((C18_action_after_message refSys Keys.none ((Game.new refSys true 0).setBotAction 7)
    sevenMsg fixedDt).2 rfl (by decide) (by decide)).2.trans (by decide!)

/-! ### C19 -/

/-- The player phase of `Game::update` performs the moves of `playerMoves` in order. -/
theorem movePlayer_moves (g : Game) (keys : Keys) (dt : ℚ) :
    (g.movePlayer keys dt).playerPaddle =
      (Game.playerMoves keys).foldl (fun p m => p.applyMove dt m) g.playerPaddle := by
  simp only [Game.movePlayer, Game.playerMoves]
  split_ifs <;> simp [Paddle.applyMove]

/-- C20, refuted as stated: with W and S both held, `Game::update` performs two moves
on the player paddle in the same tick, `moveUp` and then `moveDown`. After a first
call of `update` that leaves the player paddle at `y = 3`, a tick of 1/60 s with both
keys held clamps it to 0 and then takes it to 10, which is neither where it was, nor
where one `moveUp` alone (0) or one `moveDown` alone (13) would put it. -/
theorem C20_counterexample :
    Game.playerMoves Keys.upAndDown = [Move.up, Move.down] ∧
    gameNearTop.playerPaddle.shape.position.y = 3 ∧
    (gameNearTop.update refSys Keys.upAndDown fixedDt).playerPaddle.shape.position.y = 10 ∧
    (gameNearTop.playerPaddle.moveUp fixedDt).shape.position.y = 0 ∧
    (gameNearTop.playerPaddle.moveDown fixedDt).shape.position.y = 13 := by
  decide!

/-- C20, amended: paddle intents. The opponent paddle performs at most one move per
tick: when it follows the stored action, `moveDown` for -1, `moveUp` for 1 and
nothing for any other value; under the built-in logic it stays, or moves down by
`min(400 × dt, |diff|)` clamped at the bottom, or moves up by that amount clamped at
the top. The player paddle performs `moveUp` when W or Up is held and then
`moveDown` when S or Down is held: one move or none exactly when keys of at most one
direction are held, and both moves, up first, when keys of both directions are
held. -/
theorem C20_paddle_intents (g : Game) (keys : Keys) (dt : ℚ) (ball0 : Ball) :
    (g.movePlayer keys dt).playerPaddle =
      (Game.playerMoves keys).foldl (fun p m => p.applyMove dt m) g.playerPaddle ∧
    ((Game.playerMoves keys).length ≤ 1 ↔
      ¬ ((keys.w || keys.up) = true ∧ (keys.s || keys.down) = true)) ∧
    (((keys.w || keys.up) = true ∧ (keys.s || keys.down) = true) →
      Game.playerMoves keys = [Move.up, Move.down] ∧
      (g.movePlayer keys dt).playerPaddle = (g.playerPaddle.moveUp dt).moveDown dt) ∧
    (Game.actionMoves g).length ≤ 1 ∧
    ((g.serverMode = true ∨ g.balls = []) →
      (g.moveBot dt).botPaddle =
        (Game.actionMoves g).foldl (fun p m => p.applyMove dt m) g.botPaddle) ∧
    ((g.internalBot ball0 dt).botPaddle.shape.position.x = g.botPaddle.shape.position.x ∧
      (g.internalBot ball0 dt).botPaddle.shape.size = g.botPaddle.shape.size ∧
      ((g.internalBot ball0 dt).botPaddle.shape.position.y = g.botPaddle.shape.position.y ∨
        (g.internalBot ball0 dt).botPaddle.shape.position.y =
          min (g.botPaddle.shape.position.y +
              min (400 * dt) |ball0.getPosition.y - g.botPaddle.getPosition.y|)
            (600 - g.botPaddle.shape.size.y) ∨
        (g.internalBot ball0 dt).botPaddle.shape.position.y =
          max (g.botPaddle.shape.position.y -
              min (400 * dt) |ball0.getPosition.y - g.botPaddle.getPosition.y|) 0)) := by
  refine ⟨movePlayer_moves g keys dt, ?_, ?_, ?_, ?_, ?_⟩
  · simp only [Game.playerMoves]
    by_cases h1 : (keys.w || keys.up) = true <;> by_cases h2 : (keys.s || keys.down) = true <;>
      simp [h1, h2]
  · rintro ⟨h1, h2⟩
    refine ⟨by simp [Game.playerMoves, h1, h2], ?_⟩
    simp [Game.movePlayer, h1, h2]
  · simp only [Game.actionMoves]
    split_ifs <;> simp
  · intro h
    have hm : g.moveBot dt =
        if g.botAction = -1 then { g with botPaddle := g.botPaddle.moveDown dt }
        else if g.botAction = 1 then { g with botPaddle := g.botPaddle.moveUp dt }
        else g := by
      rcases h with h | h
      · simp only [Game.moveBot, h]
      · simp only [Game.moveBot, h]
        cases g.serverMode <;> rfl
    rw [hm]
    simp only [Game.actionMoves]
    split_ifs <;> simp [Paddle.applyMove]
  · simp only [Game.internalBot, Paddle.setShapePosition, Vector2f.add]
    obtain ⟨a, ha⟩ : ∃ a, a = min (400 * dt) |ball0.getPosition.y - g.botPaddle.getPosition.y| :=
      ⟨_, rfl⟩
    simp only [← ha]
    split_ifs with c1 c2 c3 c4
    · refine ⟨by simp, rfl, Or.inr (Or.inl ?_)⟩
      show 600 - g.botPaddle.shape.size.y =
        min (g.botPaddle.shape.position.y + a) (600 - g.botPaddle.shape.size.y)
      have hc : 600 < g.botPaddle.shape.position.y + a + g.botPaddle.shape.size.y := c3
      exact (min_eq_right (by linarith)).symm
    · refine ⟨by simp, rfl, Or.inr (Or.inl ?_)⟩
      show g.botPaddle.shape.position.y + a =
        min (g.botPaddle.shape.position.y + a) (600 - g.botPaddle.shape.size.y)
      have hc : g.botPaddle.shape.position.y + a + g.botPaddle.shape.size.y ≤ 600 :=
        not_lt.mp c3
      exact (min_eq_left (by linarith)).symm
    · refine ⟨by simp, rfl, Or.inr (Or.inr ?_)⟩
      show (0 : ℚ) = max (g.botPaddle.shape.position.y - a) 0
      have hc : g.botPaddle.shape.position.y + -a < 0 := c4
      exact (max_eq_right (by linarith)).symm
    · refine ⟨by simp, rfl, Or.inr (Or.inr ?_)⟩
      show g.botPaddle.shape.position.y + -a = max (g.botPaddle.shape.position.y - a) 0
      have hc : 0 ≤ g.botPaddle.shape.position.y + -a := not_lt.mp c4
      rw [max_eq_left (by linarith)]
      ring
    · exact ⟨rfl, rfl, Or.inl rfl⟩

/-- Witness of C20 (amended): with W and S held, the player paddle of the constructed
game is moved up and then down. -/
theorem C20_paddle_intents_witness :
    Game.playerMoves Keys.upAndDown = [Move.up, Move.down] ∧
    ((Game.new refSys true 0).movePlayer Keys.upAndDown fixedDt).playerPaddle =
      ((Game.new refSys true 0).playerPaddle.moveUp fixedDt).moveDown fixedDt :=
  (C20_paddle_intents (Game.new refSys true 0) Keys.upAndDown fixedDt
    (ballAt 390 290 0 0 1)).2.2.1 ⟨rfl, rfl⟩

/-! ### C14 -/

/-- C14: reset reproduces the initial ball. For every ball that carries the radius
and the initial position its constructor gives, and for every state of the
generator, `Ball::reset` yields the freshly constructed ball and leaves the generator
in the same state as the constructor does: centre (400,300), speed multiplier 1, and
velocity `300 × (cos a, sin a)` with `a` the angle of (first draw after seeding with
42) mod 360 degrees. Hence `reset` is idempotent, two balls constructed with the
generator in any two states are equal, and a reset ball and a new ball follow the
same trajectory under any sequence of `Ball::update` steps. -/
theorem C14_reset_reproduces_initial (S : Sys) (b : Ball) (rng rng2 : Nat) (dts : List ℚ)
    (hinit : b.initialPosition = ⟨400, 300⟩) (hrad : b.shape.radius = 10) :
    Ball.reset S b rng = Ball.new S rng2 ∧
    (Ball.new S rng).1.getPosition = ⟨400, 300⟩ ∧
    (Ball.new S rng).1.speedMultiplier = 1 ∧
    (Ball.new S rng).1.velocity =
      ⟨S.cos ((((S.rand (S.srand 42)).1 % 360 : Nat) : ℚ) * (314159 / 100000) / 180) * 300,
       S.sin ((((S.rand (S.srand 42)).1 % 360 : Nat) : ℚ) * (314159 / 100000) / 180) * 300⟩ ∧
    Ball.reset S (Ball.reset S b rng).1 (Ball.reset S b rng).2 = Ball.reset S b rng ∧
    Ball.new S rng = Ball.new S rng2 ∧
    dts.foldl (fun ball dt => ball.update dt) (Ball.reset S b rng).1 =
      dts.foldl (fun ball dt => ball.update dt) (Ball.new S rng2).1 := by
  have h1 : Ball.reset S b rng = Ball.new S rng2 := by
    obtain ⟨v, ⟨r, p⟩, ip, m⟩ := b
    simp only at hinit hrad
    subst hinit hrad
    rfl
  refine ⟨h1, ?_, rfl, rfl, ?_, rfl, by rw [h1]⟩
  · simp [Ball.new, Ball.getPosition, Vector2f.add, Vector2f.sub]
  · rw [h1]
    rfl

/-- Witness of C14: a ball in the upper left of the field, slowed down, is reset. -/
theorem C14_reset_reproduces_initial_witness :
    Ball.reset refSys (ballAt 100 50 1 2 (1 / 2)) 7 = Ball.new refSys 0 :=
  (C14_reset_reproduces_initial refSys (ballAt 100 50 1 2 (1 / 2)) 7 0 [fixedDt, fixedDt]
    rfl rfl).1

/-! ### C22 -/

/-- In every reachable state the player paddle has its original size (20,100) when
not extended and the doubled width (40,100) when extended, and the opponent paddle
has the original size. -/
theorem reachable_sizes (S : Sys) (sm : Bool) (D : ℚ → Prop) (g : Game)
    (hr : Reachable S sm D g) :
    (g.playerPaddle.originalSize = ⟨20, 100⟩ ∧
      g.playerPaddle.shape.size = if g.playerPaddle.extended then ⟨40, 100⟩ else ⟨20, 100⟩) ∧
    (g.botPaddle.originalSize = ⟨20, 100⟩ ∧ g.botPaddle.shape.size = ⟨20, 100⟩ ∧
      g.botPaddle.extended = false) := by
  induction hr with
  | init rng => simp [Game.new, Paddle.new]
  | setBotAction g a _ ih => exact ih
  | update g keys dt _ _ ih =>
    refine ⟨?_, ?_⟩
    · apply update_playerPaddle_inv S keys g dt
        (fun p => p.originalSize = ⟨20, 100⟩ ∧
          p.shape.size = if p.extended then ⟨40, 100⟩ else ⟨20, 100⟩)
      · intro p hp
        obtain ⟨-, -, m3, -, m5, -, m7, -⟩ := moveUp_spec p dt
        rw [m3, m5, m7]; exact hp
      · intro p hp
        obtain ⟨-, -, m3, -, m5, -, m7, -⟩ := moveDown_spec p dt
        rw [m3, m5, m7]; exact hp
      · intro h hh
        obtain ⟨h1, h2⟩ := hh
        simp only [Game.updateExtend, Paddle.setShapeSize]
        by_cases c1 : h.playerPaddle.extended = true
        · by_cases c2 : h.playerPaddle.extendTimeLeft - dt ≤ 0
          · rw [if_pos c1, if_pos c2]
            exact ⟨h1, by simp [h1]⟩
          · rw [if_pos c1, if_neg c2]
            exact ⟨h1, h2⟩
        · rw [if_neg c1]
          exact ⟨h1, h2⟩
      · intro p hp
        obtain ⟨h1, h2⟩ := hp
        simp only [Paddle.extend, Paddle.setShapeSize]
        by_cases c1 : (!p.extended) = true
        · rw [if_pos c1]
          refine ⟨h1, ?_⟩
          simp only [h1, if_true]
          norm_num
        · rw [if_neg c1]
          exact ⟨h1, h2⟩
      · intro p hp; exact hp
      · exact ih.1
    · apply update_botPaddle_inv S keys g dt
        (fun p => p.originalSize = ⟨20, 100⟩ ∧ p.shape.size = ⟨20, 100⟩ ∧ p.extended = false)
      · intro h hh
        simp only [Game.moveBot]
        split
        · simp only [Game.internalBot, Paddle.setShapePosition]
          split_ifs <;> exact hh
        · split_ifs
          · obtain ⟨-, -, m3, -, m5, -, m7, -⟩ := moveDown_spec h.botPaddle dt
            show (h.botPaddle.moveDown dt).originalSize = _ ∧ _
            rw [m3, m5, m7]; exact hh
          · obtain ⟨-, -, m3, -, m5, -, m7, -⟩ := moveUp_spec h.botPaddle dt
            show (h.botPaddle.moveUp dt).originalSize = _ ∧ _
            rw [m3, m5, m7]; exact hh
          · exact hh
      · intro p hp; exact hp
      · exact ih.2

/-- C22: paddle width tracks the extended flag. In every state reachable from the
constructed game by calls of `Game::update` (with any time step) and of
`setBotAction`, the player paddle's width is twice its original width, 40, when
`extended` is true and its original width, 20, when it is false; its height is the
original height 100; the opponent paddle has its original size (20,100). A scoring
reset changes neither paddle's size, nor the extended flag, nor its timer. -/
theorem C22_width_tracks_flag (S : Sys) (sm : Bool) (g : Game)
    (hr : Reachable S sm (fun _ => True) g) :
    g.playerPaddle.originalSize = ⟨20, 100⟩ ∧
    g.playerPaddle.shape.size.x =
      (if g.playerPaddle.extended then 2 * g.playerPaddle.originalSize.x
       else g.playerPaddle.originalSize.x) ∧
    g.playerPaddle.shape.size.x = (if g.playerPaddle.extended then 40 else 20) ∧
    g.playerPaddle.shape.size.y = 100 ∧
    g.botPaddle.shape.size = ⟨20, 100⟩ ∧ g.botPaddle.originalSize = ⟨20, 100⟩ ∧
    (Game.reset S g).playerPaddle.shape.size = g.playerPaddle.shape.size ∧
    (Game.reset S g).playerPaddle.extended = g.playerPaddle.extended ∧
    (Game.reset S g).playerPaddle.extendTimeLeft = g.playerPaddle.extendTimeLeft ∧
    (Game.reset S g).botPaddle.shape.size = g.botPaddle.shape.size ∧
    (Game.reset S g).botPaddle.extended = g.botPaddle.extended ∧
    (Game.reset S g).botPaddle.extendTimeLeft = g.botPaddle.extendTimeLeft := by
  obtain ⟨⟨p1, p2⟩, b1, b2, -⟩ := reachable_sizes S sm _ g hr
  refine ⟨p1, ?_, ?_, ?_, b2, b1, rfl, rfl, rfl, rfl, rfl, rfl⟩
  · rw [p2, p1]; split_ifs <;> norm_num
  · rw [p2]; split_ifs <;> rfl
  · rw [p2]; split_ifs <;> rfl

/-- Witness of C22: the server-mode game of the reference environment after one tick
of 1/60 s. -/
theorem C22_width_tracks_flag_witness :
    ((Game.new refSys true 0).update refSys Keys.none fixedDt).playerPaddle.shape.size.x =
      (if ((Game.new refSys true 0).update refSys Keys.none fixedDt).playerPaddle.extended
       then 40 else 20) :=
  (C22_width_tracks_flag refSys true _
    (Reachable.update _ Keys.none fixedDt trivial (Reachable.init 0))).2.2.1

/-! ### C23 -/

/-- One pass of the spawn loop in closed form. -/
theorem spawnStep_eq (S : Sys) (dt : ℚ) (pm : PowerUpManager) (rng : Nat) (k : PowerUpType) :
    PowerUpManager.spawnStep S dt (pm, rng) k =
      if pm.spawnTimers.get k - dt ≤ 0 then
        ({ pm with
            powerUps := pm.powerUps ++ [PowerUp.new k ⟨(((S.rand rng).1 % 800 : Nat) : ℚ), 0⟩]
            spawnTimers := pm.spawnTimers.set k (pm.spawnIntervals.get k) }, (S.rand rng).2)
      else ({ pm with spawnTimers := pm.spawnTimers.set k (pm.spawnTimers.get k - dt) }, rng) := by
  unfold PowerUpManager.spawnStep
  simp only [TypeMap.get_set, if_true, PowerUpManager.spawnPowerUp]
  split_ifs
  · congr 2
    cases k <;> rfl
  · rfl

/-- The spawn loop draws nothing and spawns nothing when no timer expires, and
otherwise the first power-up it appends is placed with the first draw it makes. -/
theorem spawnPhase_first (S : Sys) (dt : ℚ) (pm : PowerUpManager) (rng : Nat) :
    ((∀ k, 0 < pm.spawnTimers.get k - dt) →
      (PowerUpManager.spawnPhase S dt pm rng).2 = rng ∧
      (PowerUpManager.spawnPhase S dt pm rng).1.powerUps = pm.powerUps) ∧
    ((∃ k, pm.spawnTimers.get k - dt ≤ 0) →
      ∃ p rest, (PowerUpManager.spawnPhase S dt pm rng).1.powerUps = pm.powerUps ++ p :: rest ∧
        p.shape.position = ⟨(((S.rand rng).1 % 800 : Nat) : ℚ), 0⟩) := by
  have hs : PowerUpManager.spawnPhase S dt pm rng =
      PowerUpManager.spawnStep S dt (PowerUpManager.spawnStep S dt
        (PowerUpManager.spawnStep S dt (pm, rng) .ExtendPaddle) .SplitBall) .SlowMotion := rfl
  rw [hs]
  by_cases e1 : pm.spawnTimers.get .ExtendPaddle - dt ≤ 0 <;>
  by_cases e2 : pm.spawnTimers.get .SplitBall - dt ≤ 0 <;>
  by_cases e3 : pm.spawnTimers.get .SlowMotion - dt ≤ 0
  all_goals
    simp only [spawnStep_eq, TypeMap.get_set, e1, e2, e3, if_true, if_false, reduceCtorEq]
    constructor
    · intro h
      first
        | exact absurd (h .ExtendPaddle) (not_lt.mpr e1)
        | exact absurd (h .SplitBall) (not_lt.mpr e2)
        | exact absurd (h .SlowMotion) (not_lt.mpr e3)
        | exact ⟨rfl, rfl⟩
        | exact ⟨trivial, trivial⟩
    · intro h
      first
        | exact ⟨_, _, by simp only [List.append_assoc, List.singleton_append]; rfl, rfl⟩
        | exact ⟨_, _, rfl, rfl⟩
        | (obtain ⟨k, hk⟩ := h
           cases k
           · exact absurd hk e1
           · exact absurd hk e2
           · exact absurd hk e3)

theorem updateEffects_rng (dt : ℚ) (es : List ActiveEffect) (r : Refs) :
    (PowerUpManager.updateEffects dt es r).2.rng = r.rng := by
  induction es generalizing r with
  | nil => rfl
  | cons e es ih =>
    simp only [PowerUpManager.updateEffects]
    split_ifs
    · rw [ih]; cases e.type <;> rfl
    · exact ih r

/-- The collection loop leaves the generator as it was or as a ball construction
leaves it. -/
theorem collectPowerUps_rng (S : Sys) (ps : List PowerUp) (st : PowerUpManager × Refs) :
    (PowerUpManager.collectPowerUps S ps st).2.2.rng = st.2.rng ∨
    (PowerUpManager.collectPowerUps S ps st).2.2.rng = S.afterBall := by
  induction ps generalizing st with
  | nil => exact Or.inl rfl
  | cons p ps ih =>
    simp only [PowerUpManager.collectPowerUps]
    split_ifs
    · rcases ih (st.1.applyEffect S p.getType st.2) with h | h
      · rw [h]
        cases p.getType
        · exact Or.inl rfl
        · exact Or.inr rfl
        · exact Or.inl rfl
      · exact Or.inr h
    · exact ih st

/-- A tick in which no spawn timer expires leaves the generator as it was or as a
ball construction leaves it. -/
theorem update_rng_quiet (S : Sys) (keys : Keys) (g : Game) (dt : ℚ)
    (hq : ∀ k, 0 < g.powerUpManager.spawnTimers.get k - dt) :
    (g.update S keys dt).rng = g.rng ∨ (g.update S keys dt).rng = S.afterBall := by
  have h5 : ((g.prePowerUps S keys dt).updatePowerUps S dt).rng = g.rng ∨
      ((g.prePowerUps S keys dt).updatePowerUps S dt).rng = S.afterBall := by
    have hsp := ((spawnPhase_first S dt (g.prePowerUps S keys dt).powerUpManager
      (g.prePowerUps S keys dt).rng).1 (by rw [prePowerUps_manager]; exact hq)).1
    simp only [Game.updatePowerUps, PowerUpManager.update, updateEffects_rng]
    rcases collectPowerUps_rng S
      (PowerUpManager.movePowerUps S dt (PowerUpManager.spawnPhase S dt
        (g.prePowerUps S keys dt).powerUpManager (g.prePowerUps S keys dt).rng).1.powerUps)
      (_, ⟨(g.prePowerUps S keys dt).playerPaddle, (g.prePowerUps S keys dt).balls,
        (PowerUpManager.spawnPhase S dt (g.prePowerUps S keys dt).powerUpManager
          (g.prePowerUps S keys dt).rng).2⟩) with h | h
    · left
      rw [h]
      show (PowerUpManager.spawnPhase S dt (g.prePowerUps S keys dt).powerUpManager
          (g.prePowerUps S keys dt).rng).2 = g.rng
      rw [hsp, (prePowerUps_frame S keys g dt).2.2.2]
    · exact Or.inr h
  rw [update_eq_phases]
  rcases scoring_cases S ((g.prePowerUps S keys dt).updatePowerUps S dt) with e | e | e
  · rw [e]; exact h5
  · rw [e]; exact Or.inr rfl
  · rw [e]; exact Or.inr rfl

/-- Along a run that starts with the generator as a ball construction leaves it, the
generator stays in that state as long as no spawn timer expires: it holds in every
state of the run when every tick but the next one is without expiry. -/
theorem run_rng_quiet (S : Sys) (g : Game) (inputs : List TickInput)
    (hg : g.rng = S.afterBall)
    (hq : ∀ h ∈ (g :: Game.runFrom S g inputs).dropLast,
      ∀ k, 0 < h.powerUpManager.spawnTimers.get k - fixedDt) :
    ∀ h ∈ g :: Game.runFrom S g inputs, h.rng = S.afterBall := by
  induction inputs generalizing g with
  | nil =>
    intro h hh
    simp only [Game.runFrom, List.mem_singleton] at hh
    rw [hh]; exact hg
  | cons i rest ih =>
    simp only [Game.runFrom] at hq ⊢
    have hq0 : ∀ k, 0 < g.powerUpManager.spawnTimers.get k - fixedDt :=
      hq g (by simp [List.dropLast])
    have h1 : (g.tick S i).rng = S.afterBall := by
      cases ha : i.action with
      | none =>
        simp only [Game.tick, ha]
        rcases update_rng_quiet S i.keys g fixedDt hq0 with h | h
        · rw [h, hg]
        · exact h
      | some a =>
        simp only [Game.tick, ha]
        rcases update_rng_quiet S i.keys (g.setBotAction a) fixedDt hq0 with h | h
        · rw [h]; exact hg
        · exact h
    intro h hh
    rcases List.mem_cons.mp hh with rfl | hh2
    · exact hg
    · exact ih (g.tick S i) h1
        (fun x hx => hq x (by simp only [List.dropLast]; exact List.mem_cons_of_mem _ hx)) h hh2

/-- C23: ball construction reseeds the shared generator. `Ball::Ball` and `Ball::reset`
leave the process-wide generator in the state reached by seeding with 42 and drawing
once, whatever state it was in; so does the game constructor, a scoring reset and a
SplitBall pickup. A tick in which no spawn timer expires keeps the generator in that
state, and so does every run of such ticks, whatever its inputs. In the tick whose
spawn loop then spawns, the first power-up appended is placed at
`x = (second draw of the sequence seeded with 42) mod 800`, `y = 0`. -/
theorem C23_first_spawn_position (S : Sys) (sm : Bool) (g : Game) (keys : Keys) (dt : ℚ)
    (b : Ball) (rng : Nat) (pm : PowerUpManager) (r : Refs) (inputs : List TickInput) :
    (Ball.new S rng).2 = S.afterBall ∧ (Ball.reset S b rng).2 = S.afterBall ∧
    S.afterBall = (S.rand (S.srand 42)).2 ∧ S.secondDraw = (S.rand (S.rand (S.srand 42)).2).1 ∧
    (Game.new S sm rng).rng = S.afterBall ∧ (Game.reset S g).rng = S.afterBall ∧
    (pm.applyEffect S .SplitBall r).2.rng = S.afterBall ∧
    (g.rng = S.afterBall → (∀ k, 0 < g.powerUpManager.spawnTimers.get k - dt) →
      (g.update S keys dt).rng = S.afterBall) ∧
    (g.rng = S.afterBall →
      (∀ h ∈ (g :: Game.runFrom S g inputs).dropLast,
        ∀ k, 0 < h.powerUpManager.spawnTimers.get k - fixedDt) →
      ∀ h ∈ g :: Game.runFrom S g inputs, h.rng = S.afterBall) ∧
    (g.rng = S.afterBall → (∃ k, g.powerUpManager.spawnTimers.get k - dt ≤ 0) →
      ∃ p rest,
        (PowerUpManager.spawnPhase S dt g.powerUpManager g.rng).1.powerUps =
          g.powerUpManager.powerUps ++ p :: rest ∧
        p.shape.position.x = ((S.secondDraw % 800 : Nat) : ℚ) ∧ p.shape.position.y = 0) := by
  refine ⟨rfl, rfl, rfl, rfl, rfl, rfl, rfl, ?_, ?_, ?_⟩
  · intro hg hq
    rcases update_rng_quiet S keys g dt hq with h | h
    · rw [h, hg]
    · exact h
  · intro hg hq
    exact run_rng_quiet S g inputs hg hq
  · intro hg hex
    obtain ⟨p, rest, h1, h2⟩ := (spawnPhase_first S dt g.powerUpManager g.rng).2 hex
    refine ⟨p, rest, h1, ?_, ?_⟩
    · rw [h2, hg]; rfl
    · rw [h2]

/-- Witness of C23: the server-mode game of the reference environment as constructed
makes a tick of 1/60 s, in which no spawn timer expires; the generator stays in the
state a ball construction leaves. -/
theorem C23_first_spawn_position_witness :
    ((Game.new refSys true 0).update refSys Keys.none fixedDt).rng = refSys.afterBall :=
  (C23_first_spawn_position refSys true (Game.new refSys true 0) Keys.none fixedDt
    (ballAt 0 0 0 0 1) 0 PowerUpManager.new ⟨Paddle.new true, [], 0⟩ []).2.2.2.2.2.2.2.1
    rfl (by intro k; cases k <;> decide!)

/-! ### C21 -/

end Pong
